import Mathlib

/-!
# Credit-card account: ledger, billing cycles and balance engine

A shallow embedding of `AvantStep2CPP` (`TimeHelper.cpp`, `Transaction.h`,
`TransactionFactory.cpp`, `CreditCardAccount.cpp`) together with theorems about it.

Modelling conventions.

* `double` is modelled by the exact rationals `ℚ`: every statement below is about the
  arithmetic the code writes down, not about binary rounding.
* `time_t` and `int` are modelled by unbounded integers `ℤ`; C's `/` and `%` on `int`
  are `Int.tdiv` and `Int.tmod` (truncation towards zero).  The width of `int` decides a
  result in one place, the conversion `(int) diffSec` of `CTimeHelper::DiffDays`: section
  `Machine` holds the functions with that conversion, and they agree with the functions over
  `ℤ` for ledgers and days within 24855 days of the start date.
* `gmtime` followed by `mktimeGMT` is calendar normalisation in GMT: clearing the time of
  day yields the preceding midnight, adding `n` to `tm_mday` moves the instant by `n` days.
* `TransactionVector` is a `List CTransaction`, a `TransactionIter` is a position
  `0 .. length` in it (`length` is `end()`).  Reading a position that holds no transaction
  has no defined result in C++; the embedding returns `none` there.
-/

namespace AvantStep2

/-- The kind of a transaction (`CTransaction::TransactionType`). -/
inductive TransactionType where
  | CHARGE
  | PAYMENT
deriving DecidableEq, Repr

/-- A transaction (`CTransaction`): value, kind and time in seconds after the epoch. -/
structure CTransaction where
  mValue : ℚ
  mType : TransactionType
  mTime : Int
deriving DecidableEq, Repr

/-- Conversion ratio between days and seconds (`TimeHelper.cpp`). -/
def DAYS_TO_SECS : Int := 60 * 60 * 24

/-- The amount of days in one cycle (`CreditCardAccount.cpp`). -/
def DAYS_PER_CYCLE : Int := 30

namespace CTimeHelper

/-- Midnight (GMT) of the day of `time`: `gmtime`, clear hour, minute and second,
`mktimeGMT`. -/
def GetStartOfDay (time : Int) : Int := time - time % DAYS_TO_SECS

/-- The instant `days` days after `time`, same time of day: `gmtime`, add `days` to
`tm_mday`, `mktimeGMT`. -/
def AddDays (time : Int) (days : Int) : Int := time + days * DAYS_TO_SECS

/-- Difference in calendar days: `((int) difftime(GetStartOfDay time1, GetStartOfDay time2))
/ DAYS_TO_SECS`. -/
def DiffDays (time1 time2 : Int) : Int :=
  Int.tdiv (GetStartOfDay time1 - GetStartOfDay time2) DAYS_TO_SECS

end CTimeHelper

namespace CTransactionFactory

/-- The transaction of the given value and kind that happens `days` days after the account
was opened: `gmtime(accountStart)`, add `days` to `tm_mday`, `mktimeGMT`. -/
def CreateTransaction (value : ℚ) (accountStart : Int) (days : Int)
    (type : TransactionType) : CTransaction :=
  { mValue := value, mType := type, mTime := accountStart + days * DAYS_TO_SECS }

end CTransactionFactory

/-- The account (`CCreditCardAccount`): ledger, start date, cached balance with its date,
APR and credit limit. -/
structure CCreditCardAccount where
  mTransactions : List CTransaction
  mStartDate : Int
  mBalanceDate : Int
  mBalance : ℚ
  mAPR : ℚ
  mCreditLimit : ℚ
deriving DecidableEq, Repr

namespace CCreditCardAccount

/-- The constructor: empty ledger, cached balance `0.0` and balance date `-1` (the member
initialisers of `CreditCardAccount.h`). -/
def new (apr limit : ℚ) (startDate : Int) : CCreditCardAccount :=
  { mTransactions := [], mStartDate := startDate, mBalanceDate := -1, mBalance := 0,
    mAPR := apr, mCreditLimit := limit }

/-- The cycle a time falls in: `DiffDays / DAYS_PER_CYCLE`. -/
def GetCycle (currentTime startTime : Int) : Int :=
  Int.tdiv (CTimeHelper.DiffDays currentTime startTime) DAYS_PER_CYCLE

/-- The day within the cycle: `DiffDays % DAYS_PER_CYCLE`. -/
def DayInCycle (currentTime startTime : Int) : Int :=
  Int.tmod (CTimeHelper.DiffDays currentTime startTime) DAYS_PER_CYCLE

/-- The day of the account's history a transaction happened on. -/
def GetDayOfTransaction (transaction : CTransaction) (startTime : Int) : Int :=
  CTimeHelper.DiffDays transaction.mTime startTime

/-- Functor `IsInCycle`: the transaction happened during the stored cycle. -/
def IsInCycle (startTime cycle : Int) (transaction : CTransaction) : Bool :=
  decide (cycle = GetCycle transaction.mTime startTime)

/-- Functor `IsPastDay`: the transaction happened after the stored day. -/
def IsPastDay (startTime day : Int) (transaction : CTransaction) : Bool :=
  decide (CTimeHelper.DiffDays transaction.mTime startTime > day)

/-- Functor `IsInOrPastCycle`: the transaction happened during or after the stored cycle. -/
def IsInOrPastCycle (startTime cycle : Int) (transaction : CTransaction) : Bool :=
  decide (cycle ≤ GetCycle transaction.mTime startTime)

/-- The cycle of the most recent transaction plus one; `0` for an empty ledger. -/
def GetCycleCount (self : CCreditCardAccount) : Int :=
  match self.mTransactions.getLast? with
  | none => 0
  | some lastTrans => GetCycle lastTrans.mTime self.mStartDate + 1

/-- The number of transactions in the ledger. -/
def GetTransactionCount (self : CCreditCardAccount) : Nat := self.mTransactions.length

/-- The APR of the account. -/
def GetAPR (self : CCreditCardAccount) : ℚ := self.mAPR

/-- The credit limit of the account. -/
def GetCreditLimit (self : CCreditCardAccount) : ℚ := self.mCreditLimit

/-- The start date of the account. -/
def GetStartDate (self : CCreditCardAccount) : Int := self.mStartDate

/-- The cached balance and the time it was computed for. -/
def GetCurrentBalance (self : CCreditCardAccount) : ℚ × Int := (self.mBalance, self.mBalanceDate)

/-- Position of the first transaction in or after the given cycle (`find_if` with
`IsInOrPastCycle`), `end()` when the cycle is not below the cycle count. -/
def FirstTransactionAfterCycleStart (self : CCreditCardAccount) (cycle : Int) : Nat :=
  if cycle < self.GetCycleCount then
    self.mTransactions.findIdx (IsInOrPastCycle self.mStartDate cycle)
  else self.mTransactions.length

/-- Position of the first transaction of the given cycle (`find_if` with `IsInCycle`),
`end()` when the cycle is not below the cycle count. -/
def CycleBegin (self : CCreditCardAccount) (cycle : Int) : Nat :=
  if cycle < self.GetCycleCount then
    self.mTransactions.findIdx (IsInCycle self.mStartDate cycle)
  else self.mTransactions.length

/-- The backward scan of `CycleEnd`:
`for (; searchEnd != cycleStart; --searchEnd) if (GetCycle(searchEnd - 1) == cycle) return searchEnd;`
followed by `return cycleStart`.  Reading in front of the first position gives `none`. -/
def CycleEndScan (startDate : Int) (txs : List CTransaction) (cycle : Int) (cycleStart : Nat) :
    Nat → Option Nat
  | 0 => if 0 = cycleStart then some cycleStart else none
  | searchEnd + 1 =>
    if searchEnd + 1 = cycleStart then some cycleStart
    else
      match txs[searchEnd]? with
      | none => none
      | some t =>
        if GetCycle t.mTime startDate = cycle then some (searchEnd + 1)
        else CycleEndScan startDate txs cycle cycleStart searchEnd

/-- Position directly after the last transaction of the given cycle. -/
def CycleEnd (self : CCreditCardAccount) (cycle : Int) : Option Nat :=
  CycleEndScan self.mStartDate self.mTransactions cycle (self.CycleBegin cycle)
    (self.FirstTransactionAfterCycleStart (cycle + 1))

/-- Position of the most recent transaction on or before the given day, `end()` when the
first transaction is already past that day.  The first transaction is read without a check
for an empty ledger. -/
def LastTransactionOfDay (self : CCreditCardAccount) (day : Int) : Option Nat :=
  match self.mTransactions[0]? with
  | none => none
  | some first =>
    if GetDayOfTransaction first self.mStartDate > day then some self.mTransactions.length
    else some (self.mTransactions.findIdx (IsPastDay self.mStartDate day) - 1)

/-- The interest one day adds to a balance: `balance * mAPR / 365`. -/
def GetEndDayInterest (self : CCreditCardAccount) (balance : ℚ) : ℚ :=
  balance * self.mAPR / 365

/-- The `switch` that applies one transaction to a balance: a charge adds its value, a
payment subtracts it. -/
def ApplyTransaction (balance : ℚ) (transaction : CTransaction) : ℚ :=
  match transaction.mType with
  | TransactionType.CHARGE => balance + transaction.mValue
  | TransactionType.PAYMENT => balance - transaction.mValue

/-- The loop of `CalculateCycle` over the transactions of the range, carrying `balance`,
`interest` and `prevDayInCycle`. -/
def CalculateCycleLoop (self : CCreditCardAccount) :
    List CTransaction → ℚ → ℚ → Int → ℚ × ℚ × Int
  | [], balance, interest, prevDayInCycle => (balance, interest, prevDayInCycle)
  | transaction :: rest, balance, interest, prevDayInCycle =>
    let dayInCycle := DayInCycle transaction.mTime self.mStartDate
    CalculateCycleLoop self rest (ApplyTransaction balance transaction)
      (interest + self.GetEndDayInterest balance * ((dayInCycle - prevDayInCycle : Int) : ℚ))
      dayInCycle

/-- The body of `CalculateCycle` on the list of transactions of the range. -/
def CalculateCycleOn (self : CCreditCardAccount) (balance : ℚ) (range : List CTransaction)
    (justInterest : Bool) : ℚ :=
  let r := CalculateCycleLoop self range balance 0 0
  let daysLeftInCycle : Int := DAYS_PER_CYCLE - r.2.2
  let interest := r.2.1 + self.GetEndDayInterest r.1 * (daysLeftInCycle : ℚ)
  if justInterest then interest else r.1 + interest

/-- The calculation over one cycle, on the positions `start .. end` of the ledger.  A range
whose `start` lies behind `end`, or that leaves the ledger, walks over positions that hold no
transaction: `none`. -/
def CalculateCycle (self : CCreditCardAccount) (balance : ℚ) (start «end» : Nat)
    (justInterest : Bool) : Option ℚ :=
  if start ≤ «end» ∧ «end» ≤ self.mTransactions.length then
    some (CalculateCycleOn self balance ((self.mTransactions.drop start).take («end» - start))
      justInterest)
  else none

/-- The loop `balance += GetEndDayInterest(balance) * DAYS_PER_CYCLE; prevCycle++;` run
`n` times. -/
def AccrueCycles (self : CCreditCardAccount) : Nat → ℚ → ℚ
  | 0, balance => balance
  | n + 1, balance =>
    AccrueCycles self n (balance + self.GetEndDayInterest balance * (DAYS_PER_CYCLE : ℚ))

/-- The outer `while` of `CalculateInRange`, one iteration per unit of fuel.  The inner
`while (cycle - prevCycle > 1)` runs `cycle - prevCycle - 1` times when that is positive and
its counter is overwritten by `prevCycle = cycle` at the end of the iteration; the closing
`while (prevCycle < cycleCount)` runs `cycleCount - prevCycle` times when that is positive. -/
def CalculateInRangeLoop (self : CCreditCardAccount) («end» : Nat) (cycleCount : Int) :
    Nat → ℚ → Nat → Int → Option ℚ
  | 0, _, _, _ => none
  | fuel + 1, balance, start, prevCycle =>
    if start ≠ self.mTransactions.length ∧ start ≠ «end» then
      match self.mTransactions[start]? with
      | none => none
      | some t =>
        let cycle := GetCycle t.mTime self.mStartDate
        let balance := self.AccrueCycles (cycle - prevCycle - 1).toNat balance
        match self.CycleEnd cycle with
        | none => none
        | some cycleEnd =>
          if cycleEnd ≠ self.mTransactions.length then
            match self.CalculateCycle balance start cycleEnd false with
            | none => none
            | some balance =>
              CalculateInRangeLoop self «end» cycleCount fuel balance cycleEnd cycle
          else if cycle < cycleCount then
            match self.CalculateCycle balance start self.mTransactions.length false with
            | none => none
            | some balance =>
              CalculateInRangeLoop self «end» cycleCount fuel balance
                self.mTransactions.length (cycle + 1)
          else
            CalculateInRangeLoop self «end» cycleCount fuel
              ((self.mTransactions.drop start).foldl ApplyTransaction balance)
              self.mTransactions.length cycle
    else some (self.AccrueCycles (cycleCount - prevCycle).toNat balance)

/-- The balance after the transactions `start .. end` and `cycleCount` cycles.  The first
statement reads the cycle of the transaction at `start`.  Every iteration of the outer loop
moves `start` forward, so `length + 1` units of fuel are never used up. -/
def CalculateInRange (self : CCreditCardAccount) (balance : ℚ) (start «end» : Nat)
    (cycleCount : Int) : Option ℚ :=
  match self.mTransactions[start]? with
  | none => none
  | some t =>
    CalculateInRangeLoop self «end» cycleCount (self.mTransactions.length + 1) balance start
      (GetCycle t.mTime self.mStartDate)

/-- The balance on a given day. -/
def GetBalanceOnDay (self : CCreditCardAccount) (day : Int) : Option ℚ :=
  let timeOfDay := CTimeHelper.AddDays self.mStartDate day
  let cycleOfDay := GetCycle timeOfDay self.mStartDate
  let startingBalance : ℚ := 0
  match self.LastTransactionOfDay day with
  | none => none
  | some lastOfDay =>
    if lastOfDay = self.mTransactions.length then
      self.CalculateInRange startingBalance self.mTransactions.length
        self.mTransactions.length cycleOfDay
    else
      self.CalculateInRange startingBalance 0 (lastOfDay + 1) cycleOfDay

/-- The search for the insertion position in `AddTransaction`: `end()` when the ledger is
not empty and its last transaction is not later than the new one, otherwise the position of
the first transaction strictly later than the new one (`end()` when there is none). -/
def FindInsertIter (self : CCreditCardAccount) (transactionTime : Int) : Nat :=
  match self.mTransactions.getLast? with
  | some back =>
    if back.mTime ≤ transactionTime then self.mTransactions.length
    else self.mTransactions.findIdx (fun iter => decide (transactionTime < iter.mTime))
  | none => self.mTransactions.findIdx (fun iter => decide (transactionTime < iter.mTime))

/-- The loop of `AddTransaction` that takes the transactions of the last cycle back out of
the balance: for every transaction from `cycleStart` on, by its kind, the value of the NEW
`transaction` is subtracted (charge) or added (payment). -/
def RemoveLastCycle (transaction : CTransaction) (balance : ℚ) (iter : CTransaction) : ℚ :=
  match iter.mType with
  | TransactionType.CHARGE => balance - transaction.mValue
  | TransactionType.PAYMENT => balance + transaction.mValue

/-- Create a transaction and add it to the ledger.  The result is the returned flag and the
account afterwards. -/
def AddTransaction (self : CCreditCardAccount) (value : ℚ) (day : Int)
    (type : TransactionType) : Option (Bool × CCreditCardAccount) :=
  let transaction := CTransactionFactory.CreateTransaction value self.mStartDate day type
  let transactionTime := transaction.mTime
  let insertIter := self.FindInsertIter transactionTime
  let cycle := GetCycle transaction.mTime self.mStartDate
  let added : CCreditCardAccount :=
    { self with mTransactions := self.mTransactions.insertIdx insertIter transaction }
  if insertIter = self.mTransactions.length then
    let closed : Option ℚ :=
      if self.GetTransactionCount > 0 then
        let currentCycleCount := self.GetCycleCount - 1
        if cycle - currentCycleCount > 0 then
          let cycleStart := self.CycleBegin currentCycleCount
          self.CalculateInRange
            ((self.mTransactions.drop cycleStart).foldl (RemoveLastCycle transaction)
              self.mBalance)
            cycleStart self.mTransactions.length cycle
        else some self.mBalance
      else some self.mBalance
    match closed with
    | none => none
    | some balance =>
      match added.CalculateInRange balance insertIter added.mTransactions.length cycle with
      | none => none
      | some balance =>
        if balance - self.mCreditLimit > 0.000001 ∨ balance < 0 then
          some (false, { added with mTransactions := added.mTransactions.eraseIdx insertIter })
        else
          some (true, { added with mBalance := balance, mBalanceDate := transaction.mTime })
  else
    match added.CalculateInRange self.mBalance 0 added.mTransactions.length cycle with
    | none => none
    | some balance =>
      if balance - self.mCreditLimit > 0.000001 ∨ balance < 0 then
        some (true, { added with mBalance := balance, mBalanceDate := transaction.mTime })
      else
        some (true, { added with mBalance := balance, mBalanceDate := transaction.mTime })

/-- Add a payment: decreases the balance. -/
def AddPayment (self : CCreditCardAccount) (value : ℚ) (day : Int) :
    Option (Bool × CCreditCardAccount) :=
  self.AddTransaction value day TransactionType.PAYMENT

/-- Add a charge: increases the balance. -/
def AddCharge (self : CCreditCardAccount) (value : ℚ) (day : Int) :
    Option (Bool × CCreditCardAccount) :=
  self.AddTransaction value day TransactionType.CHARGE

end CCreditCardAccount

/-! ## Specification-level definitions

Definitions that follow the wording of the specification (closed forms, orderings) and the
sample accounts used as concrete inputs. -/

/-- The signed amount of a transaction: `+value` for a charge, `-value` for a payment. -/
def SignedAmount (t : CTransaction) : ℚ :=
  match t.mType with
  | TransactionType.CHARGE => t.mValue
  | TransactionType.PAYMENT => -t.mValue

/-- The balance `b_i = b + s_1 + ... + s_i` held after the first `i` transactions. -/
def RunningBalance (b : ℚ) (txs : List CTransaction) (i : Nat) : ℚ :=
  b + ((txs.take i).map SignedAmount).sum

/-- The day-in-cycle `d_i` of the `i`-th transaction (counted from 1), with `d_0 = 0`. -/
def DayOfIndex (startDate : Int) (txs : List CTransaction) : Nat → Int
  | 0 => 0
  | i + 1 =>
    match txs[i]? with
    | some t => CCreditCardAccount.DayInCycle t.mTime startDate
    | none => 0

/-- The closed form of one cycle: the final balance plus `apr / 365` times the sum, over the
gaps, of the balance held at the start of the gap times the length of the gap. -/
def CycleFormula (apr : ℚ) (startDate : Int) (b : ℚ) (txs : List CTransaction) : ℚ :=
  RunningBalance b txs txs.length
    + apr / 365 *
      ((Finset.range txs.length).sum (fun i =>
          RunningBalance b txs i
            * ((DayOfIndex startDate txs (i + 1) - DayOfIndex startDate txs i : Int) : ℚ))
        + RunningBalance b txs txs.length
            * ((30 - DayOfIndex startDate txs txs.length : Int) : ℚ))

namespace CCreditCardAccount

/-- The cycle of a transaction of the account. -/
def CycleOf (self : CCreditCardAccount) (t : CTransaction) : Int :=
  GetCycle t.mTime self.mStartDate

/-- The ledger is ordered by cycle. -/
def CycleSorted (self : CCreditCardAccount) : Prop :=
  self.mTransactions.Pairwise (fun a b => self.CycleOf a ≤ self.CycleOf b)

/-- The ledger is ordered by time. -/
def TimeSorted (self : CCreditCardAccount) : Prop :=
  self.mTransactions.Pairwise (fun a b => a.mTime ≤ b.mTime)

/-- The balance after the cycles `0, 1, ..., n - 1` have been closed in order, starting from
balance `0`: each cycle replaces the balance by `CalculateCycle` of the balance and the
transactions of that cycle. -/
def BalanceAfterCycles (self : CCreditCardAccount) : Nat → ℚ
  | 0 => 0
  | n + 1 =>
    self.CalculateCycleOn (BalanceAfterCycles self n)
      (self.mTransactions.filter (fun t => decide (self.CycleOf t = (n : Int)))) false

/-- The value `CalculateInRange` reaches on a cycle-sorted ledger whose last transaction is
in cycle `cl`: all cycles below `K` closed when `cl < K`, otherwise the cycles below `cl`
closed and the transactions of cycle `cl` added without interest. -/
def RangeResult (self : CCreditCardAccount) (cl K : Int) : ℚ :=
  if cl < K then self.BalanceAfterCycles K.toNat
  else self.BalanceAfterCycles cl.toNat
    + ((self.mTransactions.filter (fun t => decide (self.CycleOf t = cl))).map SignedAmount).sum

/-! ### Sample accounts -/

/-- An account opened at midnight of 27 February 2012 GMT with APR 0.35 and limit 1000, holding
the given ledger and cache. -/
def sampleAccount (ledger : List CTransaction) (balance : ℚ) (balanceDate : Int) :
    CCreditCardAccount :=
  { mTransactions := ledger, mStartDate := 1330300800, mBalanceDate := balanceDate,
    mBalance := balance, mAPR := 35 / 100, mCreditLimit := 1000 }

/-- A transaction of the sample account on the given day. -/
def sampleTx (value : ℚ) (type : TransactionType) (day : Int) : CTransaction :=
  CTransactionFactory.CreateTransaction value 1330300800 day type

/-- The ledger with a skipped cycle: charges on days 0, 8 and 25, a payment on day 15 and a
charge on day 65. -/
def skipCycleLedger : List CTransaction :=
  [sampleTx 500 TransactionType.CHARGE 0, sampleTx 200 TransactionType.CHARGE 8,
   sampleTx 200 TransactionType.PAYMENT 15, sampleTx 100 TransactionType.CHARGE 25,
   sampleTx 300 TransactionType.CHARGE 65]

/-- The sample account after `AddCharge(500, 0)`. -/
def oneChargeAccount : CCreditCardAccount :=
  sampleAccount [sampleTx 500 TransactionType.CHARGE 0] 500 1330300800

/-- The sample account after `AddCharge(500, 0)` and `AddCharge(100, 5)`. -/
def twoChargesAccount : CCreditCardAccount :=
  sampleAccount [sampleTx 500 TransactionType.CHARGE 0, sampleTx 100 TransactionType.CHARGE 5]
    600 (1330300800 + 5 * 86400)

/-- The sample account after `AddCharge(100, 0)`. -/
def smallChargeAccount : CCreditCardAccount :=
  sampleAccount [sampleTx 100 TransactionType.CHARGE 0] 100 1330300800

/-- The sample account after `AddCharge(100, 0)` and `AddCharge(50, 31)`. -/
def smallChargeNextCycleAccount : CCreditCardAccount :=
  sampleAccount [sampleTx 100 TransactionType.CHARGE 0, sampleTx 50 TransactionType.CHARGE 31]
    (14915 / 73) (1330300800 + 31 * 86400)

/-- The sample account after `AddCharge(500, 0)` and `AddCharge(460, 8)`. -/
def nearLimitAccount : CCreditCardAccount :=
  sampleAccount [sampleTx 500 TransactionType.CHARGE 0, sampleTx 460 TransactionType.CHARGE 8]
    960 (1330300800 + 8 * 86400)

/-! ### Sequences of calls -/

/-- One call of the public interface: the kind of transaction, the amount and the day. -/
structure Call where
  kind : TransactionType
  value : ℚ
  day : Int

/-- The call as made on an account: `AddCharge` or `AddPayment` by its kind. -/
def DoCall (self : CCreditCardAccount) (c : Call) : Option (Bool × CCreditCardAccount) :=
  match c.kind with
  | TransactionType.CHARGE => self.AddCharge c.value c.day
  | TransactionType.PAYMENT => self.AddPayment c.value c.day

/-- The account after a sequence of calls, whether they were accepted or rejected. -/
def RunCalls : CCreditCardAccount → List Call → Option CCreditCardAccount
  | acct, [] => some acct
  | acct, c :: cs =>
    match DoCall acct c with
    | none => none
    | some r => RunCalls r.2 cs

/-- The sample account after `AddCharge(100, 5)`: no transaction before day 5. -/
def lateChargeAccount : CCreditCardAccount :=
  sampleAccount [sampleTx 100 TransactionType.CHARGE 5] 100 (1330300800 + 5 * 86400)

/-- A call of `GetBalanceOnDay` as a step on the account: the returned value and the account
afterwards.  Neither the method nor anything it calls (`LastTransactionOfDay`,
`CalculateInRange`, `CycleEnd`, `CycleBegin`, `FirstTransactionAfterCycleStart`,
`CalculateCycle`, `GetEndDayInterest`, `GetCycleCount`) assigns to a member, so the account
afterwards is the account before. -/
def GetBalanceOnDayCall (self : CCreditCardAccount) (day : Int) :
    Option ℚ × CCreditCardAccount :=
  (self.GetBalanceOnDay day, self)

/-- Two accounts with the same ledger, start date and APR. -/
def SameLedger (self other : CCreditCardAccount) : Prop :=
  other.mTransactions = self.mTransactions ∧ other.mStartDate = self.mStartDate
    ∧ other.mAPR = self.mAPR

/-- The calls of the skipped-cycle scenario: charges on days 0, 8 and 25, a payment on day 15
and a charge on day 65. -/
def skipCycleCalls : List Call :=
  [{ kind := TransactionType.CHARGE, value := 500, day := 0 },
   { kind := TransactionType.CHARGE, value := 200, day := 8 },
   { kind := TransactionType.PAYMENT, value := 200, day := 15 },
   { kind := TransactionType.CHARGE, value := 100, day := 25 },
   { kind := TransactionType.CHARGE, value := 300, day := 65 }]

/-- The sample account after the calls of the skipped-cycle scenario. -/
def skipCycleAccount : CCreditCardAccount :=
  sampleAccount skipCycleLedger (49769233 / 53290) (1330300800 + 65 * 86400)

/-- The sample account after `AddCharge(100, 0)` and `AddCharge(100, 8)`. -/
def twoSmallChargesAccount : CCreditCardAccount :=
  sampleAccount [sampleTx 100 TransactionType.CHARGE 0, sampleTx 100 TransactionType.CHARGE 8]
    200 (1330300800 + 8 * 86400)

/-- The sample account after `AddCharge(100, 0)`, `AddCharge(100, 8)` and
`AddCharge(50, 4)`. -/
def backdatedChargeAccount : CCreditCardAccount :=
  sampleAccount [sampleTx 100 TransactionType.CHARGE 0, sampleTx 50 TransactionType.CHARGE 4,
    sampleTx 100 TransactionType.CHARGE 8] 450 (1330300800 + 4 * 86400)

end CCreditCardAccount

/-! ## The 32-bit `int` of the build

`CTimeHelper::DiffDays` converts the difference of two midnights, in seconds, to `int` and
only then divides by `DAYS_TO_SECS`.  The definitions above take `int` as `ℤ`, where that
conversion changes nothing: they are the program as long as the two midnights lie less than
`2 ^ 31` seconds (24855 days) apart.  The definitions of this section carry the conversion.
They are the same functions with the same bodies, built on `Machine.CTimeHelper.DiffDays`;
what does not depend on `DiffDays` (`GetStartOfDay`, `AddDays`, `CreateTransaction`,
`GetEndDayInterest`, `ApplyTransaction`, `AccrueCycles`, `FindInsertIter`, `RemoveLastCycle`)
is shared.  Every other `int` the program computes (cycle numbers, days within a cycle, their
differences) is a quotient or remainder of a `DiffDays` result and stays far inside the range
of `int`; the sum `tm_mday + days` of `AddDays` does so for every day count below
`2 ^ 31 - 31`. -/

namespace Machine

/-- The conversion `(int) x` of a `double` that holds the whole number `x`: the number itself
when it lies in the range of a 32-bit `int`.  Outside that range the language leaves the
result undefined; the conversion instruction of the x86 build delivers `INT_MIN`. -/
def castInt (x : Int) : Int :=
  if -2147483648 ≤ x ∧ x ≤ 2147483647 then x else -2147483648

namespace CTimeHelper

/-- Difference in calendar days: `((int) difftime(GetStartOfDay time1, GetStartOfDay time2))
/ DAYS_TO_SECS`, the conversion to `int` included. -/
def DiffDays (time1 time2 : Int) : Int :=
  Int.tdiv
    (castInt (AvantStep2.CTimeHelper.GetStartOfDay time1
      - AvantStep2.CTimeHelper.GetStartOfDay time2))
    DAYS_TO_SECS

end CTimeHelper

namespace CCreditCardAccount

/-- The cycle a time falls in: `DiffDays / DAYS_PER_CYCLE`. -/
def GetCycle (currentTime startTime : Int) : Int :=
  Int.tdiv (CTimeHelper.DiffDays currentTime startTime) DAYS_PER_CYCLE

/-- The day within the cycle: `DiffDays % DAYS_PER_CYCLE`. -/
def DayInCycle (currentTime startTime : Int) : Int :=
  Int.tmod (CTimeHelper.DiffDays currentTime startTime) DAYS_PER_CYCLE

/-- The day of the account's history a transaction happened on. -/
def GetDayOfTransaction (transaction : CTransaction) (startTime : Int) : Int :=
  CTimeHelper.DiffDays transaction.mTime startTime

/-- Functor `IsInCycle`: the transaction happened during the stored cycle. -/
def IsInCycle (startTime cycle : Int) (transaction : CTransaction) : Bool :=
  decide (cycle = GetCycle transaction.mTime startTime)

/-- Functor `IsPastDay`: the transaction happened after the stored day. -/
def IsPastDay (startTime day : Int) (transaction : CTransaction) : Bool :=
  decide (CTimeHelper.DiffDays transaction.mTime startTime > day)

/-- Functor `IsInOrPastCycle`: the transaction happened during or after the stored cycle. -/
def IsInOrPastCycle (startTime cycle : Int) (transaction : CTransaction) : Bool :=
  decide (cycle ≤ GetCycle transaction.mTime startTime)

/-- The cycle of the most recent transaction plus one; `0` for an empty ledger. -/
def GetCycleCount (self : CCreditCardAccount) : Int :=
  match self.mTransactions.getLast? with
  | none => 0
  | some lastTrans => GetCycle lastTrans.mTime self.mStartDate + 1

/-- Position of the first transaction in or after the given cycle, `end()` when the cycle is
not below the cycle count. -/
def FirstTransactionAfterCycleStart (self : CCreditCardAccount) (cycle : Int) : Nat :=
  if cycle < GetCycleCount self then
    self.mTransactions.findIdx (IsInOrPastCycle self.mStartDate cycle)
  else self.mTransactions.length

/-- Position of the first transaction of the given cycle, `end()` when the cycle is not below
the cycle count. -/
def CycleBegin (self : CCreditCardAccount) (cycle : Int) : Nat :=
  if cycle < GetCycleCount self then
    self.mTransactions.findIdx (IsInCycle self.mStartDate cycle)
  else self.mTransactions.length

/-- The backward scan of `CycleEnd`; reading in front of the first position gives `none`. -/
def CycleEndScan (startDate : Int) (txs : List CTransaction) (cycle : Int) (cycleStart : Nat) :
    Nat → Option Nat
  | 0 => if 0 = cycleStart then some cycleStart else none
  | searchEnd + 1 =>
    if searchEnd + 1 = cycleStart then some cycleStart
    else
      match txs[searchEnd]? with
      | none => none
      | some t =>
        if GetCycle t.mTime startDate = cycle then some (searchEnd + 1)
        else CycleEndScan startDate txs cycle cycleStart searchEnd

/-- Position directly after the last transaction of the given cycle. -/
def CycleEnd (self : CCreditCardAccount) (cycle : Int) : Option Nat :=
  CycleEndScan self.mStartDate self.mTransactions cycle (CycleBegin self cycle)
    (FirstTransactionAfterCycleStart self (cycle + 1))

/-- Position of the most recent transaction on or before the given day, `end()` when the
first transaction is already past that day. -/
def LastTransactionOfDay (self : CCreditCardAccount) (day : Int) : Option Nat :=
  match self.mTransactions[0]? with
  | none => none
  | some first =>
    if GetDayOfTransaction first self.mStartDate > day then some self.mTransactions.length
    else some (self.mTransactions.findIdx (IsPastDay self.mStartDate day) - 1)

/-- The loop of `CalculateCycle` over the transactions of the range, carrying `balance`,
`interest` and `prevDayInCycle`. -/
def CalculateCycleLoop (self : CCreditCardAccount) :
    List CTransaction → ℚ → ℚ → Int → ℚ × ℚ × Int
  | [], balance, interest, prevDayInCycle => (balance, interest, prevDayInCycle)
  | transaction :: rest, balance, interest, prevDayInCycle =>
    let dayInCycle := DayInCycle transaction.mTime self.mStartDate
    CalculateCycleLoop self rest (CCreditCardAccount.ApplyTransaction balance transaction)
      (interest + self.GetEndDayInterest balance * ((dayInCycle - prevDayInCycle : Int) : ℚ))
      dayInCycle

/-- The body of `CalculateCycle` on the list of transactions of the range. -/
def CalculateCycleOn (self : CCreditCardAccount) (balance : ℚ) (range : List CTransaction)
    (justInterest : Bool) : ℚ :=
  let r := CalculateCycleLoop self range balance 0 0
  let daysLeftInCycle : Int := DAYS_PER_CYCLE - r.2.2
  let interest := r.2.1 + self.GetEndDayInterest r.1 * (daysLeftInCycle : ℚ)
  if justInterest then interest else r.1 + interest

/-- The calculation over one cycle, on the positions `start .. end` of the ledger. -/
def CalculateCycle (self : CCreditCardAccount) (balance : ℚ) (start «end» : Nat)
    (justInterest : Bool) : Option ℚ :=
  if start ≤ «end» ∧ «end» ≤ self.mTransactions.length then
    some (CalculateCycleOn self balance ((self.mTransactions.drop start).take («end» - start))
      justInterest)
  else none

/-- The outer `while` of `CalculateInRange`, one iteration per unit of fuel, followed by the
closing `while (prevCycle < cycleCount)`. -/
def CalculateInRangeLoop (self : CCreditCardAccount) («end» : Nat) (cycleCount : Int) :
    Nat → ℚ → Nat → Int → Option ℚ
  | 0, _, _, _ => none
  | fuel + 1, balance, start, prevCycle =>
    if start ≠ self.mTransactions.length ∧ start ≠ «end» then
      match self.mTransactions[start]? with
      | none => none
      | some t =>
        let cycle := GetCycle t.mTime self.mStartDate
        let balance := self.AccrueCycles (cycle - prevCycle - 1).toNat balance
        match CycleEnd self cycle with
        | none => none
        | some cycleEnd =>
          if cycleEnd ≠ self.mTransactions.length then
            match CalculateCycle self balance start cycleEnd false with
            | none => none
            | some balance =>
              CalculateInRangeLoop self «end» cycleCount fuel balance cycleEnd cycle
          else if cycle < cycleCount then
            match CalculateCycle self balance start self.mTransactions.length false with
            | none => none
            | some balance =>
              CalculateInRangeLoop self «end» cycleCount fuel balance
                self.mTransactions.length (cycle + 1)
          else
            CalculateInRangeLoop self «end» cycleCount fuel
              ((self.mTransactions.drop start).foldl CCreditCardAccount.ApplyTransaction balance)
              self.mTransactions.length cycle
    else some (self.AccrueCycles (cycleCount - prevCycle).toNat balance)

/-- The balance after the transactions `start .. end` and `cycleCount` cycles. -/
def CalculateInRange (self : CCreditCardAccount) (balance : ℚ) (start «end» : Nat)
    (cycleCount : Int) : Option ℚ :=
  match self.mTransactions[start]? with
  | none => none
  | some t =>
    CalculateInRangeLoop self «end» cycleCount (self.mTransactions.length + 1) balance start
      (GetCycle t.mTime self.mStartDate)

/-- The balance on a given day. -/
def GetBalanceOnDay (self : CCreditCardAccount) (day : Int) : Option ℚ :=
  let timeOfDay := AvantStep2.CTimeHelper.AddDays self.mStartDate day
  let cycleOfDay := GetCycle timeOfDay self.mStartDate
  let startingBalance : ℚ := 0
  match LastTransactionOfDay self day with
  | none => none
  | some lastOfDay =>
    if lastOfDay = self.mTransactions.length then
      CalculateInRange self startingBalance self.mTransactions.length
        self.mTransactions.length cycleOfDay
    else
      CalculateInRange self startingBalance 0 (lastOfDay + 1) cycleOfDay

/-- Create a transaction and add it to the ledger.  The result is the returned flag and the
account afterwards. -/
def AddTransaction (self : CCreditCardAccount) (value : ℚ) (day : Int)
    (type : TransactionType) : Option (Bool × CCreditCardAccount) :=
  let transaction := CTransactionFactory.CreateTransaction value self.mStartDate day type
  let transactionTime := transaction.mTime
  let insertIter := self.FindInsertIter transactionTime
  let cycle := GetCycle transaction.mTime self.mStartDate
  let added : CCreditCardAccount :=
    { self with mTransactions := self.mTransactions.insertIdx insertIter transaction }
  if insertIter = self.mTransactions.length then
    let closed : Option ℚ :=
      if self.GetTransactionCount > 0 then
        let currentCycleCount := GetCycleCount self - 1
        if cycle - currentCycleCount > 0 then
          let cycleStart := CycleBegin self currentCycleCount
          CalculateInRange self
            ((self.mTransactions.drop cycleStart).foldl
              (CCreditCardAccount.RemoveLastCycle transaction) self.mBalance)
            cycleStart self.mTransactions.length cycle
        else some self.mBalance
      else some self.mBalance
    match closed with
    | none => none
    | some balance =>
      match CalculateInRange added balance insertIter added.mTransactions.length cycle with
      | none => none
      | some balance =>
        if balance - self.mCreditLimit > 0.000001 ∨ balance < 0 then
          some (false, { added with mTransactions := added.mTransactions.eraseIdx insertIter })
        else
          some (true, { added with mBalance := balance, mBalanceDate := transaction.mTime })
  else
    match CalculateInRange added self.mBalance 0 added.mTransactions.length cycle with
    | none => none
    | some balance =>
      if balance - self.mCreditLimit > 0.000001 ∨ balance < 0 then
        some (true, { added with mBalance := balance, mBalanceDate := transaction.mTime })
      else
        some (true, { added with mBalance := balance, mBalanceDate := transaction.mTime })

/-- Add a payment: decreases the balance. -/
def AddPayment (self : CCreditCardAccount) (value : ℚ) (day : Int) :
    Option (Bool × CCreditCardAccount) :=
  AddTransaction self value day TransactionType.PAYMENT

/-- Add a charge: increases the balance. -/
def AddCharge (self : CCreditCardAccount) (value : ℚ) (day : Int) :
    Option (Bool × CCreditCardAccount) :=
  AddTransaction self value day TransactionType.CHARGE

/-- The call as made on an account: `AddCharge` or `AddPayment` by its kind. -/
def DoCall (self : CCreditCardAccount) (c : CCreditCardAccount.Call) :
    Option (Bool × CCreditCardAccount) :=
  match c.kind with
  | TransactionType.CHARGE => AddCharge self c.value c.day
  | TransactionType.PAYMENT => AddPayment self c.value c.day

/-- The account after a sequence of calls, whether they were accepted or rejected. -/
def RunCalls : CCreditCardAccount → List CCreditCardAccount.Call → Option CCreditCardAccount
  | acct, [] => some acct
  | acct, c :: cs =>
    match DoCall acct c with
    | none => none
    | some r => RunCalls r.2 cs

end CCreditCardAccount

/-- The midnights of `time` and `startTime` lie less than `2 ^ 31` seconds apart, so the
conversion to `int` in `DiffDays` keeps their difference. -/
def InIntRange (time startTime : Int) : Prop :=
  -2147483648 ≤ AvantStep2.CTimeHelper.GetStartOfDay time
      - AvantStep2.CTimeHelper.GetStartOfDay startTime
    ∧ AvantStep2.CTimeHelper.GetStartOfDay time
      - AvantStep2.CTimeHelper.GetStartOfDay startTime ≤ 2147483647

/-- Every transaction of the ledger lies within the range of `int` seconds of the start
date. -/
def LedgerInIntRange (self : CCreditCardAccount) : Prop :=
  ∀ t ∈ self.mTransactions, InIntRange t.mTime self.mStartDate

end Machine

/-! ## Theorems

Integer and time arithmetic first, then `CalculateCycle`, the positions computed by
`CycleEnd`, the iterations of `CalculateInRange` on a sorted ledger, and `AddTransaction`. -/

theorem tdiv_thirty (a : Int) :
    a.tdiv 30 = if 0 ≤ a then a / 30 else -((-a) / 30) := by
  split
  · exact Int.tdiv_eq_ediv ‹0 ≤ a› (by decide)
  · have h : 0 ≤ -a := by omega
    have := Int.tdiv_eq_ediv h (show (0 : Int) ≤ 30 by decide)
    rw [Int.neg_tdiv] at this
    omega

theorem tmod_thirty (a : Int) :
    a.tmod 30 = a - 30 * (if 0 ≤ a then a / 30 else -((-a) / 30)) := by
  rw [Int.tmod_def, tdiv_thirty]

theorem tdiv_thirty_mono {a b : Int} (h : a ≤ b) : a.tdiv 30 ≤ b.tdiv 30 := by
  rw [tdiv_thirty, tdiv_thirty]
  split <;> split <;> omega

namespace CTimeHelper

theorem GetStartOfDay_eq (t : Int) : GetStartOfDay t = 86400 * (t / 86400) := by
  unfold GetStartOfDay DAYS_TO_SECS
  omega

theorem DiffDays_eq (t₁ t₂ : Int) : DiffDays t₁ t₂ = t₁ / 86400 - t₂ / 86400 := by
  unfold DiffDays
  rw [GetStartOfDay_eq, GetStartOfDay_eq]
  have : 86400 * (t₁ / 86400) - 86400 * (t₂ / 86400) = (t₁ / 86400 - t₂ / 86400) * DAYS_TO_SECS := by
    unfold DAYS_TO_SECS; ring
  rw [this, Int.mul_tdiv_cancel _ (by unfold DAYS_TO_SECS; decide)]

theorem DiffDays_mono {t₁ t₂ : Int} (s : Int) (h : t₁ ≤ t₂) : DiffDays t₁ s ≤ DiffDays t₂ s := by
  rw [DiffDays_eq, DiffDays_eq]
  omega

theorem DiffDays_AddDays (s d : Int) : DiffDays (AddDays s d) s = d := by
  rw [DiffDays_eq]
  unfold AddDays DAYS_TO_SECS
  omega

end CTimeHelper

namespace CCreditCardAccount

theorem ApplyTransaction_eq (b : ℚ) (t : CTransaction) :
    ApplyTransaction b t = b + SignedAmount t := by
  unfold ApplyTransaction SignedAmount
  cases t.mType <;> simp [sub_eq_add_neg]

theorem CalculateCycleLoop_append (self : CCreditCardAccount) (l : List CTransaction)
    (t : CTransaction) (b i : ℚ) (p : Int) :
    CalculateCycleLoop self (l ++ [t]) b i p =
      (ApplyTransaction (CalculateCycleLoop self l b i p).1 t,
        (CalculateCycleLoop self l b i p).2.1
          + self.GetEndDayInterest (CalculateCycleLoop self l b i p).1
            * ((DayInCycle t.mTime self.mStartDate - (CalculateCycleLoop self l b i p).2.2 : Int) : ℚ),
        DayInCycle t.mTime self.mStartDate) := by
  induction l generalizing b i p with
  | nil => simp [CalculateCycleLoop]
  | cons x xs ih =>
    rw [List.cons_append]
    simp only [CalculateCycleLoop]
    exact ih _ _ _

theorem RunningBalance_append_le (b : ℚ) (l : List CTransaction) (t : CTransaction) (i : Nat)
    (h : i ≤ l.length) : RunningBalance b (l ++ [t]) i = RunningBalance b l i := by
  unfold RunningBalance
  rw [List.take_append_of_le_length h]

theorem DayOfIndex_append_le (s : Int) (l : List CTransaction) (t : CTransaction) (i : Nat)
    (h : i ≤ l.length) : DayOfIndex s (l ++ [t]) i = DayOfIndex s l i := by
  cases i with
  | zero => rfl
  | succ k =>
    have hk : k < l.length := h
    simp [DayOfIndex, List.getElem?_append_left hk]

theorem DayOfIndex_append_last (s : Int) (l : List CTransaction) (t : CTransaction) :
    DayOfIndex s (l ++ [t]) (l.length + 1) = DayInCycle t.mTime s := by
  simp [DayOfIndex]

theorem RunningBalance_append_last (b : ℚ) (l : List CTransaction) (t : CTransaction) :
    RunningBalance b (l ++ [t]) (l.length + 1) = RunningBalance b l l.length + SignedAmount t := by
  unfold RunningBalance
  simp [List.take_append, add_assoc]

theorem CalculateCycleLoop_closed (self : CCreditCardAccount) (b : ℚ) (l : List CTransaction) :
    CalculateCycleLoop self l b 0 0 =
      (RunningBalance b l l.length,
        self.mAPR / 365 * (Finset.range l.length).sum (fun i =>
          RunningBalance b l i
            * ((DayOfIndex self.mStartDate l (i + 1) - DayOfIndex self.mStartDate l i : Int) : ℚ)),
        DayOfIndex self.mStartDate l l.length) := by
  induction l using List.reverseRecOn with
  | nil => simp [CalculateCycleLoop, RunningBalance, DayOfIndex]
  | append_singleton l t ih =>
    rw [CalculateCycleLoop_append, ih]
    simp only [List.length_append, List.length_singleton]
    rw [Finset.sum_range_succ, RunningBalance_append_last, DayOfIndex_append_last,
      ApplyTransaction_eq, RunningBalance_append_le b l t l.length le_rfl,
      DayOfIndex_append_le _ l t l.length le_rfl]
    have hsum : (Finset.range l.length).sum (fun i =>
          RunningBalance b (l ++ [t]) i
            * ((DayOfIndex self.mStartDate (l ++ [t]) (i + 1)
                - DayOfIndex self.mStartDate (l ++ [t]) i : Int) : ℚ))
        = (Finset.range l.length).sum (fun i =>
          RunningBalance b l i
            * ((DayOfIndex self.mStartDate l (i + 1) - DayOfIndex self.mStartDate l i : Int) : ℚ)) := by
      apply Finset.sum_congr rfl
      intro i hi
      have hi' : i < l.length := Finset.mem_range.mp hi
      rw [RunningBalance_append_le b l t i hi'.le, DayOfIndex_append_le _ l t i hi'.le,
        DayOfIndex_append_le _ l t (i + 1) hi']
    rw [hsum]
    simp only [GetEndDayInterest, Prod.mk.injEq, and_true, true_and]
    ring

theorem CalculateCycleOn_eq_formula (self : CCreditCardAccount) (b : ℚ) (l : List CTransaction) :
    CalculateCycleOn self b l false = CycleFormula self.mAPR self.mStartDate b l := by
  simp only [CalculateCycleOn, CalculateCycleLoop_closed, CycleFormula, GetEndDayInterest,
    DAYS_PER_CYCLE]
  simp
  ring

theorem findIdx_append_hit {α : Type} (p : α → Bool) (l₁ l₂ : List α) (y : α)
    (h₁ : ∀ x ∈ l₁, p x = false) (hy : p y = true) :
    (l₁ ++ y :: l₂).findIdx p = l₁.length := by
  rw [List.findIdx_append]
  have h : l₁.findIdx p = l₁.length := List.findIdx_eq_length.mpr h₁
  simp [h, List.findIdx_cons, hy]

theorem findIdx_le_of_hit {α : Type} (p : α → Bool) (l₁ l₂ : List α) (y : α)
    (hy : p y = true) : (l₁ ++ y :: l₂).findIdx p ≤ l₁.length := by
  rw [List.findIdx_append]
  split
  · omega
  · simp [List.findIdx_cons, hy]

theorem GetCycleCount_append_cons (self : CCreditCardAccount) (l₁ l₂ : List CTransaction)
    (y : CTransaction) (h : self.mTransactions = l₁ ++ y :: l₂) :
    self.GetCycleCount = self.CycleOf ((y :: l₂).getLast (by simp)) + 1 := by
  unfold GetCycleCount CycleOf
  rw [h, List.getLast?_append_of_ne_nil _ (by simp), List.getLast?_eq_getLast _ (by simp)]

theorem CycleEnd_of_last (self : CCreditCardAccount) (pre post : List CTransaction)
    (bl : CTransaction) (c : Int) (h : self.mTransactions = pre ++ bl :: post)
    (hbl : self.CycleOf bl = c) (hpre : post ≠ [] → ∀ x ∈ pre, self.CycleOf x ≤ c)
    (hpost : ∀ x ∈ post, c < self.CycleOf x) :
    self.CycleEnd c = some (pre.length + 1) := by
  have hcount : c < self.GetCycleCount := by
    rw [GetCycleCount_append_cons self pre post bl h]
    rcases List.mem_cons.mp (List.getLast_mem (l := bl :: post) (by simp)) with hm | hm
    · rw [hm, hbl]; omega
    · have := hpost _ hm; omega
  have hCB : self.CycleBegin c ≤ pre.length := by
    unfold CycleBegin
    rw [if_pos hcount, h]
    exact findIdx_le_of_hit _ pre post bl (by simp [IsInCycle]; exact hbl.symm)
  have hFA : self.FirstTransactionAfterCycleStart (c + 1) = pre.length + 1 := by
    unfold FirstTransactionAfterCycleStart
    cases post with
    | nil =>
      have hc : self.GetCycleCount = c + 1 := by
        rw [GetCycleCount_append_cons self pre [] bl h]; simp [hbl]
      rw [if_neg (by omega), h]; simp
    | cons y post' =>
      have hc : c + 1 < self.GetCycleCount := by
        rw [GetCycleCount_append_cons self pre (y :: post') bl h]
        have hm : (bl :: y :: post').getLast (by simp) ∈ y :: post' := by
          rw [List.getLast_cons (by simp)]; exact List.getLast_mem _
        have := hpost _ hm; omega
      rw [if_pos hc, h]
      have : pre ++ bl :: y :: post' = (pre ++ [bl]) ++ y :: post' := by simp
      rw [this, findIdx_append_hit _ (pre ++ [bl]) post' y]
      · simp
      · intro x hx
        have hx' : self.CycleOf x ≤ c := by
          rcases List.mem_append.mp hx with hx | hx
          · exact hpre (by simp) x hx
          · simp at hx; rw [hx, hbl]
        simp only [IsInOrPastCycle, decide_eq_false_iff_not]
        unfold CycleOf at hx'; omega
      · have := hpost y (by simp)
        simp only [IsInOrPastCycle, decide_eq_true_eq]
        unfold CycleOf at this; omega
  unfold CycleEnd
  rw [hFA]
  unfold CycleEndScan
  rw [if_neg (by omega), h]
  simp only [List.getElem?_append_right (le_refl _), Nat.sub_self, List.getElem?_cons_zero]
  unfold CycleOf at hbl
  simp [hbl]

theorem CycleEnd_of_block (self : CCreditCardAccount) (pre block post : List CTransaction)
    (c : Int) (h : self.mTransactions = pre ++ block ++ post) (hne : block ≠ [])
    (hblock : ∀ x ∈ block, self.CycleOf x = c)
    (hpre : post ≠ [] → ∀ x ∈ pre, self.CycleOf x ≤ c)
    (hpost : ∀ x ∈ post, c < self.CycleOf x) :
    self.CycleEnd c = some (pre.length + block.length) := by
  have hsplit : block = block.dropLast ++ [block.getLast hne] :=
    (List.dropLast_append_getLast hne).symm
  have hlen : block.length = block.dropLast.length + 1 := by
    conv_lhs => rw [hsplit]
    simp
  have h' : self.mTransactions = (pre ++ block.dropLast) ++ block.getLast hne :: post := by
    rw [h]; conv_lhs => rw [hsplit]
    simp
  have := CycleEnd_of_last self (pre ++ block.dropLast) post (block.getLast hne) c h'
    (hblock _ (List.getLast_mem hne))
    (by
      intro hp x hx
      rcases List.mem_append.mp hx with hx | hx
      · exact hpre hp x hx
      · exact le_of_eq (hblock x (List.mem_of_mem_dropLast hx)))
    hpost
  rw [this, hlen]; simp; omega

theorem CalculateCycle_of_block (self : CCreditCardAccount) (pre block post : List CTransaction)
    (b : ℚ) (j : Bool) (h : self.mTransactions = pre ++ block ++ post) :
    self.CalculateCycle b pre.length (pre.length + block.length) j
      = some (self.CalculateCycleOn b block j) := by
  unfold CalculateCycle
  rw [if_pos (by rw [h]; simp), h]
  simp

theorem CalculateInRangeLoop_exit (self : CCreditCardAccount) (e : Nat) (K : Int) (fuel : Nat)
    (b : ℚ) (p : Int) :
    self.CalculateInRangeLoop e K (fuel + 1) b self.mTransactions.length p
      = some (self.AccrueCycles (K - p).toNat b) := by
  simp [CalculateInRangeLoop]

theorem CalculateInRangeLoop_step (self : CCreditCardAccount) (e : Nat) (K : Int)
    (pre block post : List CTransaction) (c : Int) (fuel : Nat) (b : ℚ) (p : Int)
    (h : self.mTransactions = pre ++ block ++ post) (hne : block ≠ [])
    (hblock : ∀ x ∈ block, self.CycleOf x = c)
    (hpre : post ≠ [] → ∀ x ∈ pre, self.CycleOf x ≤ c)
    (hpost : ∀ x ∈ post, c < self.CycleOf x) (he : pre.length ≠ e) :
    self.CalculateInRangeLoop e K (fuel + 1) b pre.length p =
      if post = [] then
        if c < K then
          self.CalculateInRangeLoop e K fuel
            (self.CalculateCycleOn (self.AccrueCycles (c - p - 1).toNat b) block false)
            self.mTransactions.length (c + 1)
        else
          self.CalculateInRangeLoop e K fuel
            (block.foldl ApplyTransaction (self.AccrueCycles (c - p - 1).toNat b))
            self.mTransactions.length c
      else
        self.CalculateInRangeLoop e K fuel
          (self.CalculateCycleOn (self.AccrueCycles (c - p - 1).toNat b) block false)
          (pre.length + block.length) c := by
  obtain ⟨b0, bt, rfl⟩ := List.exists_cons_of_ne_nil hne
  have hlen : self.mTransactions.length = pre.length + (b0 :: bt).length + post.length := by
    rw [h]; simp; omega
  have hget : self.mTransactions[pre.length]? = some b0 := by
    rw [h, List.append_assoc, List.getElem?_append_right (le_refl _)]; simp
  have hc0 : GetCycle b0.mTime self.mStartDate = c := hblock b0 (by simp)
  have hCE := CycleEnd_of_block self pre (b0 :: bt) post c h hne hblock hpre hpost
  rw [CalculateInRangeLoop]
  rw [if_pos ⟨by rw [hlen]; simp; omega, he⟩]
  simp only [hget, hc0, hCE]
  by_cases hp : post = []
  · subst hp
    have hlen' : pre.length + (b0 :: bt).length = self.mTransactions.length := by
      rw [hlen]; simp
    have hdrop : self.mTransactions.drop pre.length = b0 :: bt := by rw [h]; simp
    rw [if_pos rfl, hlen']
    simp only [ne_eq, not_true_eq_false, if_false]
    by_cases hK : c < K
    · rw [if_pos hK, if_pos hK, ← hlen', CalculateCycle_of_block self pre (b0 :: bt) [] _ _ h]
    · rw [if_neg hK, if_neg hK, hdrop]
  · rw [if_neg hp]
    have hlt : pre.length + (b0 :: bt).length ≠ self.mTransactions.length := by
      rw [hlen]
      have : 0 < post.length := List.length_pos.mpr hp
      omega
    rw [if_pos hlt, CalculateCycle_of_block self pre (b0 :: bt) post _ _ h]

theorem split_block (self : CCreditCardAccount) (c : Int) :
    ∀ r : List CTransaction, r.Pairwise (fun a b => self.CycleOf a ≤ self.CycleOf b) →
      (∀ x ∈ r, c ≤ self.CycleOf x) →
      ∃ bt post, r = bt ++ post ∧ (∀ x ∈ bt, self.CycleOf x = c)
        ∧ (∀ x ∈ post, c < self.CycleOf x) := by
  intro r
  induction r with
  | nil => intro _ _; exact ⟨[], [], rfl, by simp, by simp⟩
  | cons t r ih =>
    intro hs hge
    rw [List.pairwise_cons] at hs
    by_cases ht : self.CycleOf t = c
    · obtain ⟨bt, post, hr, hb, hp⟩ := ih hs.2 (fun x hx => hge x (List.mem_cons_of_mem _ hx))
      refine ⟨t :: bt, post, by rw [hr]; rfl, ?_, hp⟩
      intro x hx
      rcases List.mem_cons.mp hx with hx | hx
      · rw [hx]; exact ht
      · exact hb x hx
    · have hlt : c < self.CycleOf t := lt_of_le_of_ne (hge t (by simp)) (Ne.symm ht)
      refine ⟨[], t :: r, rfl, by simp, ?_⟩
      intro x hx
      rcases List.mem_cons.mp hx with hx | hx
      · rw [hx]; exact hlt
      · exact lt_of_lt_of_le hlt (hs.1 x hx)

theorem split_head_block (self : CCreditCardAccount) (pre : List CTransaction)
    (t : CTransaction) (r : List CTransaction)
    (hs : (pre ++ t :: r).Pairwise (fun a b => self.CycleOf a ≤ self.CycleOf b)) :
    ∃ block post, t :: r = block ++ post ∧ block ≠ [] ∧ post.length < (t :: r).length
      ∧ (∀ x ∈ block, self.CycleOf x = self.CycleOf t)
      ∧ (∀ x ∈ post, self.CycleOf t < self.CycleOf x)
      ∧ (∀ x ∈ pre, self.CycleOf x ≤ self.CycleOf t) := by
  rw [List.pairwise_append] at hs
  obtain ⟨_, htr, hcross⟩ := hs
  rw [List.pairwise_cons] at htr
  obtain ⟨bt, post, hr, hb, hp⟩ := split_block self (self.CycleOf t) r htr.2 htr.1
  refine ⟨t :: bt, post, by rw [hr]; rfl, by simp, by rw [hr]; simp; omega, ?_, hp, ?_⟩
  · intro x hx
    rcases List.mem_cons.mp hx with hx | hx
    · rw [hx]
    · exact hb x hx
  · intro x hx
    exact hcross x hx t (by simp)

theorem CalculateInRangeLoop_defined (self : CCreditCardAccount) (K : Int)
    (hs : self.CycleSorted) :
    ∀ (n : Nat) (pre rest : List CTransaction) (fuel : Nat) (b : ℚ) (p : Int),
      rest.length = n → self.mTransactions = pre ++ rest → n + 1 ≤ fuel →
      ∃ v, self.CalculateInRangeLoop self.mTransactions.length K fuel b pre.length p = some v := by
  intro n
  induction n using Nat.strong_induction_on with
  | _ n ih =>
    intro pre rest fuel b p hn h hfuel
    obtain ⟨f, rfl⟩ : ∃ f, fuel = f + 1 := ⟨fuel - 1, by omega⟩
    cases rest with
    | nil =>
      have : pre.length = self.mTransactions.length := by rw [h]; simp
      rw [this, CalculateInRangeLoop_exit]
      exact ⟨_, rfl⟩
    | cons t r =>
      have hs' : (pre ++ t :: r).Pairwise (fun a b => self.CycleOf a ≤ self.CycleOf b) := by
        have := hs; unfold CycleSorted at this; rwa [h] at this
      obtain ⟨block, post, hsplit, hne, hlt, hb, hp, hpre⟩ := split_head_block self pre t r hs'
      have h' : self.mTransactions = pre ++ block ++ post := by
        rw [h, hsplit, List.append_assoc]
      have hlen : self.mTransactions.length = pre.length + (t :: r).length := by rw [h]; simp
      rw [CalculateInRangeLoop_step self _ K pre block post _ f b p h' hne hb
        (fun _ => hpre) hp (by rw [hlen]; simp)]
      obtain ⟨g, rfl⟩ : ∃ g, f = g + 1 := ⟨f - 1, by simp at hn; omega⟩
      by_cases hpost : post = []
      · rw [if_pos hpost]
        split <;> rw [CalculateInRangeLoop_exit] <;> exact ⟨_, rfl⟩
      · rw [if_neg hpost]
        have := ih post.length (by omega) (pre ++ block) post (g + 1)
          (self.CalculateCycleOn (self.AccrueCycles (self.CycleOf t - p - 1).toNat b) block false)
          (self.CycleOf t) rfl h' (by omega)
        simpa using this

theorem GetCycle_mono {t₁ t₂ : Int} (s : Int) (h : t₁ ≤ t₂) : GetCycle t₁ s ≤ GetCycle t₂ s := by
  unfold GetCycle DAYS_PER_CYCLE
  exact tdiv_thirty_mono (CTimeHelper.DiffDays_mono s h)

theorem GetCycle_AddDays (s d : Int) : GetCycle (CTimeHelper.AddDays s d) s = d.tdiv 30 := by
  unfold GetCycle DAYS_PER_CYCLE
  rw [CTimeHelper.DiffDays_AddDays]

theorem CycleSorted_of_TimeSorted (self : CCreditCardAccount) (h : self.TimeSorted) :
    self.CycleSorted := by
  unfold CycleSorted
  unfold TimeSorted at h
  exact h.imp (fun hab => GetCycle_mono _ hab)

theorem AccrueCycles_succ (self : CCreditCardAccount) (n : Nat) (b : ℚ) :
    self.AccrueCycles (n + 1) b =
      self.AccrueCycles n b + self.GetEndDayInterest (self.AccrueCycles n b) * (DAYS_PER_CYCLE : ℚ) := by
  induction n generalizing b with
  | zero => simp [AccrueCycles]
  | succ k ih =>
    rw [AccrueCycles, ih]
    rfl

theorem AccrueCycles_zero_balance (self : CCreditCardAccount) (n : Nat) :
    self.AccrueCycles n 0 = 0 := by
  induction n with
  | zero => rfl
  | succ k ih => rw [AccrueCycles_succ, ih]; simp [GetEndDayInterest]

theorem CalculateCycleOn_nil (self : CCreditCardAccount) (b : ℚ) :
    self.CalculateCycleOn b [] false = b + self.GetEndDayInterest b * (DAYS_PER_CYCLE : ℚ) := by
  simp [CalculateCycleOn, CalculateCycleLoop]

theorem foldl_ApplyTransaction (b : ℚ) (l : List CTransaction) :
    l.foldl ApplyTransaction b = b + (l.map SignedAmount).sum := by
  induction l generalizing b with
  | nil => simp
  | cons t l ih => simp [List.foldl_cons, ih, ApplyTransaction_eq, add_assoc]

theorem BalanceAfterCycles_skip (self : CCreditCardAccount) (m : Nat) :
    ∀ k : Nat, (∀ x ∈ self.mTransactions,
        ¬ ((m : Int) ≤ self.CycleOf x ∧ self.CycleOf x < (m : Int) + k)) →
      self.BalanceAfterCycles (m + k) = self.AccrueCycles k (self.BalanceAfterCycles m) := by
  intro k
  induction k with
  | zero => intro _; rfl
  | succ k ih =>
    intro h
    have hk := ih (fun x hx hc => h x hx ⟨hc.1, by have := hc.2; push_cast; omega⟩)
    have hnil : self.mTransactions.filter
        (fun t => decide (self.CycleOf t = ((m + k : Nat) : Int))) = [] := by
      rw [List.filter_eq_nil_iff]
      intro x hx
      have := h x hx
      simp only [decide_eq_true_eq]
      push_cast at this ⊢
      omega
    rw [← Nat.add_assoc, BalanceAfterCycles, hnil, CalculateCycleOn_nil, hk, AccrueCycles_succ]

theorem BalanceAfterCycles_eq_zero (self : CCreditCardAccount) (n : Nat)
    (h : ∀ x ∈ self.mTransactions, (n : Int) ≤ self.CycleOf x) :
    self.BalanceAfterCycles n = 0 := by
  have := BalanceAfterCycles_skip self 0 n (fun x hx hc => by have := h x hx; omega)
  rw [Nat.zero_add] at this
  rw [this]
  exact AccrueCycles_zero_balance self n

theorem filter_cycle_of_block (self : CCreditCardAccount) (pre block post : List CTransaction)
    (c : Int) (hpre : ∀ x ∈ pre, self.CycleOf x < c) (hblock : ∀ x ∈ block, self.CycleOf x = c)
    (hpost : ∀ x ∈ post, c < self.CycleOf x) :
    (pre ++ block ++ post).filter (fun t => decide (self.CycleOf t = c)) = block := by
  rw [List.filter_append, List.filter_append]
  have h1 : pre.filter (fun t => decide (self.CycleOf t = c)) = [] := by
    rw [List.filter_eq_nil_iff]; intro x hx; have := hpre x hx; simp; omega
  have h2 : post.filter (fun t => decide (self.CycleOf t = c)) = [] := by
    rw [List.filter_eq_nil_iff]; intro x hx; have := hpost x hx; simp; omega
  have h3 : block.filter (fun t => decide (self.CycleOf t = c)) = block := by
    rw [List.filter_eq_self]; intro x hx; simp [hblock x hx]
  rw [h1, h2, h3]; simp

theorem CalculateInRangeLoop_closed (self : CCreditCardAccount) (K cl : Int)
    (hs : self.CycleSorted) (hnn : ∀ x ∈ self.mTransactions, 0 ≤ self.CycleOf x)
    (hcl : ∃ l, self.mTransactions.getLast? = some l ∧ self.CycleOf l = cl) :
    ∀ (n : Nat) (pre : List CTransaction) (t : CTransaction) (r : List CTransaction)
      (fuel : Nat) (b : ℚ) (p : Int),
      (t :: r).length = n → self.mTransactions = pre ++ t :: r → n + 1 ≤ fuel →
      (∀ x ∈ pre, self.CycleOf x < self.CycleOf t) →
      self.AccrueCycles (self.CycleOf t - p - 1).toNat b
        = self.BalanceAfterCycles (self.CycleOf t).toNat →
      self.CalculateInRangeLoop self.mTransactions.length K fuel b pre.length p
        = some (self.RangeResult cl K) := by
  intro n
  induction n using Nat.strong_induction_on with
  | _ n ih =>
    intro pre t r fuel b p hn h hfuel hbound hacc
    obtain ⟨f, rfl⟩ : ∃ f, fuel = f + 1 := ⟨fuel - 1, by omega⟩
    have hs' : (pre ++ t :: r).Pairwise (fun a b => self.CycleOf a ≤ self.CycleOf b) := by
      have := hs; unfold CycleSorted at this; rwa [h] at this
    obtain ⟨block, post, hsplit, hne, hlt, hb, hp, hpre⟩ := split_head_block self pre t r hs'
    have h' : self.mTransactions = pre ++ block ++ post := by
      rw [h, hsplit, List.append_assoc]
    have hlen : self.mTransactions.length = pre.length + (t :: r).length := by rw [h]; simp
    have hc0 : 0 ≤ self.CycleOf t := hnn t (by rw [h]; simp)
    have hfilter : self.mTransactions.filter
        (fun x => decide (self.CycleOf x = self.CycleOf t)) = block := by
      rw [h']; exact filter_cycle_of_block self pre block post _ hbound hb hp
    have hclose : self.CalculateCycleOn
          (self.AccrueCycles (self.CycleOf t - p - 1).toNat b) block false
        = self.BalanceAfterCycles ((self.CycleOf t).toNat + 1) := by
      rw [BalanceAfterCycles, hacc]
      have : (((self.CycleOf t).toNat : Nat) : Int) = self.CycleOf t := Int.toNat_of_nonneg hc0
      rw [this, hfilter]
    rw [CalculateInRangeLoop_step self _ K pre block post _ f b p h' hne hb
      (fun _ => hpre) hp (by rw [hlen]; simp)]
    obtain ⟨g, rfl⟩ : ∃ g, f = g + 1 := ⟨f - 1, by simp at hn; omega⟩
    by_cases hpost : post = []
    · subst hpost
      rw [if_pos rfl]
      have hcl' : cl = self.CycleOf t := by
        obtain ⟨l, hl, hlc⟩ := hcl
        rw [h', List.append_nil, List.getLast?_append_of_ne_nil _ hne,
          List.getLast?_eq_getLast _ hne] at hl
        rw [← hlc, ← Option.some.inj hl]
        exact hb _ (List.getLast_mem hne)
      have hle : ∀ x ∈ self.mTransactions, self.CycleOf x ≤ self.CycleOf t := by
        intro x hx
        rw [h', List.append_nil] at hx
        rcases List.mem_append.mp hx with hx | hx
        · exact hpre x hx
        · exact le_of_eq (hb x hx)
      unfold RangeResult
      rw [hcl']
      by_cases hK : self.CycleOf t < K
      · rw [if_pos hK, if_pos hK, CalculateInRangeLoop_exit, hclose]
        have := BalanceAfterCycles_skip self ((self.CycleOf t).toNat + 1)
          (K - (self.CycleOf t + 1)).toNat
          (fun x hx hc => by have := hle x hx; omega)
        rw [← this]
        congr 2
        omega
      · rw [if_neg hK, if_neg hK, CalculateInRangeLoop_exit, hacc, hfilter,
          foldl_ApplyTransaction]
        have : (K - self.CycleOf t).toNat = 0 := by omega
        rw [this]; rfl
    · rw [if_neg hpost]
      obtain ⟨t', r', rfl⟩ := List.exists_cons_of_ne_nil hpost
      have hpostS : (t' :: r').Pairwise (fun a b => self.CycleOf a ≤ self.CycleOf b) := by
        rw [hsplit] at hs'
        rw [← List.append_assoc] at hs'
        exact (List.pairwise_append.mp hs').2.1
      have hct' : self.CycleOf t < self.CycleOf t' := hp t' (by simp)
      have hIH := ih (t' :: r').length (by omega) (pre ++ block) t' r' (g + 1)
        (self.CalculateCycleOn (self.AccrueCycles (self.CycleOf t - p - 1).toNat b) block false)
        (self.CycleOf t) rfl h' (by omega)
        (by
          intro x hx
          rcases List.mem_append.mp hx with hx | hx
          · exact lt_of_le_of_lt (hpre x hx) hct'
          · rw [hb x hx]; exact hct')
        (by
          rw [hclose]
          have := BalanceAfterCycles_skip self ((self.CycleOf t).toNat + 1)
            (self.CycleOf t' - self.CycleOf t - 1).toNat
            (fun x hx hc => by
              rw [h'] at hx
              rcases List.mem_append.mp hx with hx | hx
              · rcases List.mem_append.mp hx with hx | hx
                · have := hpre x hx; omega
                · have := hb x hx; omega
              · have : self.CycleOf t' ≤ self.CycleOf x := by
                  rcases List.mem_cons.mp hx with hx | hx
                  · rw [hx]
                  · exact (List.pairwise_cons.mp hpostS).1 x hx
                omega)
          rw [← this]
          congr 1
          omega)
      simpa using hIH

theorem GetBalanceOnDay_of_all_before (self : CCreditCardAccount) (d : Int) (t : CTransaction)
    (r : List CTransaction) (h : self.mTransactions = t :: r)
    (hall : ∀ x ∈ self.mTransactions, GetDayOfTransaction x self.mStartDate ≤ d) :
    self.GetBalanceOnDay d =
      self.CalculateInRangeLoop self.mTransactions.length (d.tdiv 30)
        (self.mTransactions.length + 1) 0 0 (self.CycleOf t) := by
  have hfind : self.mTransactions.findIdx (IsPastDay self.mStartDate d)
      = self.mTransactions.length := by
    rw [List.findIdx_eq_length]
    intro x hx
    have := hall x hx
    unfold GetDayOfTransaction at this
    simp only [IsPastDay, decide_eq_false_iff_not]
    omega
  have hlen : self.mTransactions.length = r.length + 1 := by rw [h]; simp
  have h0 : self.mTransactions[0]? = some t := by rw [h]; simp
  have ht : ¬ GetDayOfTransaction t self.mStartDate > d := by
    have := hall t (by rw [h]; simp)
    omega
  unfold GetBalanceOnDay LastTransactionOfDay
  simp only [h0, if_neg ht, hfind]
  rw [if_neg (by omega), GetCycle_AddDays]
  unfold CalculateInRange
  simp only [h0]
  have : self.mTransactions.length - 1 + 1 = self.mTransactions.length := by omega
  rw [this]
  rfl

theorem CycleOf_nonneg (self : CCreditCardAccount) (x : CTransaction)
    (h : 0 ≤ GetDayOfTransaction x self.mStartDate) : 0 ≤ self.CycleOf x := by
  unfold CycleOf GetCycle DAYS_PER_CYCLE
  unfold GetDayOfTransaction at h
  exact Int.tdiv_nonneg h (by decide)

theorem day_le_last (self : CCreditCardAccount) (l : CTransaction)
    (hlast : self.mTransactions.getLast? = some l) (hs : self.TimeSorted) :
    ∀ x ∈ self.mTransactions,
      GetDayOfTransaction x self.mStartDate ≤ GetDayOfTransaction l self.mStartDate := by
  intro x hx
  have hne : self.mTransactions ≠ [] := List.ne_nil_of_mem hx
  have hsplit := List.dropLast_append_getLast hne
  rw [List.getLast?_eq_getLast _ hne] at hlast
  have hl : self.mTransactions.getLast hne = l := Option.some.inj hlast
  rw [hl] at hsplit
  unfold TimeSorted at hs
  rw [← hsplit] at hx hs
  unfold GetDayOfTransaction
  rcases List.mem_append.mp hx with hx | hx
  · exact CTimeHelper.DiffDays_mono _ ((List.pairwise_append.mp hs).2.2 x hx l (by simp))
  · simp at hx; rw [hx]

theorem GetBalanceOnDay_eq_RangeResult (self : CCreditCardAccount) (d : Int) (l : CTransaction)
    (hlast : self.mTransactions.getLast? = some l) (hs : self.TimeSorted)
    (hdays : ∀ x ∈ self.mTransactions, 0 ≤ GetDayOfTransaction x self.mStartDate)
    (hd : GetDayOfTransaction l self.mStartDate ≤ d) :
    self.GetBalanceOnDay d = some (self.RangeResult (self.CycleOf l) (d.tdiv 30)) := by
  have hcs := CycleSorted_of_TimeSorted self hs
  obtain ⟨t, r, h⟩ : ∃ t r, self.mTransactions = t :: r := by
    cases hm : self.mTransactions with
    | nil => rw [hm] at hlast; simp at hlast
    | cons t r => exact ⟨t, r, rfl⟩
  have hall : ∀ x ∈ self.mTransactions, GetDayOfTransaction x self.mStartDate ≤ d :=
    fun x hx => le_trans (day_le_last self l hlast hs x hx) hd
  rw [GetBalanceOnDay_of_all_before self d t r h hall]
  have hnn : ∀ x ∈ self.mTransactions, 0 ≤ self.CycleOf x :=
    fun x hx => CycleOf_nonneg self x (hdays x hx)
  have hfirst : ∀ x ∈ self.mTransactions, self.CycleOf t ≤ self.CycleOf x := by
    intro x hx
    unfold CycleSorted at hcs
    rw [h] at hx hcs
    rcases List.mem_cons.mp hx with hx | hx
    · rw [hx]
    · exact (List.pairwise_cons.mp hcs).1 x hx
  have := CalculateInRangeLoop_closed self (d.tdiv 30) (self.CycleOf l) hcs hnn
    ⟨l, hlast, rfl⟩ (t :: r).length [] t r (self.mTransactions.length + 1) 0 (self.CycleOf t)
    rfl (by rw [h]; rfl) (by rw [h]) (by simp)
    (by
      rw [AccrueCycles_zero_balance, BalanceAfterCycles_eq_zero]
      intro x hx
      have h1 := hfirst x hx
      have h2 := hnn t (by rw [h]; simp)
      omega)
  simpa using this

/-- With `int` taken as `ℤ`: on a non-empty ledger sorted by time with all days `>= 0`, for a
day `d` whose cycle `d / 30` lies strictly after the cycle of the last transaction,
`GetBalanceOnDay d` is the balance obtained from `0` by closing the cycles `0 .. d / 30 - 1` in
order with `CalculateCycle`; a cycle without transactions multiplies the balance by
`1 + 30 * apr / 365`. -/
theorem GetBalanceOnDay_after_last_cycle (self : CCreditCardAccount) (d : Int) (l : CTransaction)
    (hlast : self.mTransactions.getLast? = some l) (hs : self.TimeSorted)
    (hdays : ∀ x ∈ self.mTransactions, 0 ≤ GetDayOfTransaction x self.mStartDate)
    (hd : GetCycle l.mTime self.mStartDate < d / 30) :
    self.GetBalanceOnDay d = some (self.BalanceAfterCycles (d / 30).toNat)
      ∧ ∀ b : ℚ, self.CalculateCycleOn b [] false = b * (1 + 30 * self.mAPR / 365) := by
  have hl : l ∈ self.mTransactions := List.mem_of_getLast?_eq_some hlast
  have hl0 := hdays l hl
  have hc0 := CycleOf_nonneg self l hl0
  have hcyc : self.CycleOf l = GetDayOfTransaction l self.mStartDate / 30 := by
    unfold CycleOf GetCycle DAYS_PER_CYCLE
    exact Int.tdiv_eq_ediv hl0 (by decide)
  have hd' : self.CycleOf l < d / 30 := hd
  have hdpos : 0 ≤ d := by omega
  have htd : d.tdiv 30 = d / 30 := Int.tdiv_eq_ediv hdpos (by decide)
  constructor
  · rw [GetBalanceOnDay_eq_RangeResult self d l hlast hs hdays (by omega), htd]
    unfold RangeResult
    rw [if_pos hd']
  · intro b
    rw [CalculateCycleOn_nil]
    unfold GetEndDayInterest DAYS_PER_CYCLE
    push_cast
    ring

theorem insert_keeps_TimeSorted (tx : CTransaction) :
    ∀ l : List CTransaction, l.Pairwise (fun a b => a.mTime ≤ b.mTime) →
      (l.insertIdx (l.findIdx (fun iter => decide (tx.mTime < iter.mTime))) tx).Pairwise
        (fun a b => a.mTime ≤ b.mTime) := by
  intro l
  induction l with
  | nil => intro _; simp
  | cons a l ih =>
    intro hs
    rw [List.pairwise_cons] at hs
    rw [List.findIdx_cons]
    by_cases h : tx.mTime < a.mTime
    · simp only [h, decide_True, cond_true, List.insertIdx_zero]
      rw [List.pairwise_cons]
      refine ⟨?_, List.pairwise_cons.mpr hs⟩
      intro x hx
      rcases List.mem_cons.mp hx with hx | hx
      · rw [hx]; exact le_of_lt h
      · exact le_trans (le_of_lt h) (hs.1 x hx)
    · simp only [h, decide_False, cond_false, List.insertIdx_succ_cons]
      rw [List.pairwise_cons]
      refine ⟨?_, ih hs.2⟩
      intro x hx
      rcases (List.mem_insertIdx (List.findIdx_le_length _)).mp hx with hx | hx
      · rw [hx]; exact not_lt.mp h
      · exact hs.1 x hx

theorem FindInsertIter_mid (self : CCreditCardAccount) (time : Int) (l : CTransaction)
    (hlast : self.mTransactions.getLast? = some l) (hlt : time < l.mTime) :
    self.FindInsertIter time
        = self.mTransactions.findIdx (fun iter => decide (time < iter.mTime))
      ∧ self.FindInsertIter time < self.mTransactions.length := by
  have hfi : self.FindInsertIter time
      = self.mTransactions.findIdx (fun iter => decide (time < iter.mTime)) := by
    unfold FindInsertIter
    rw [hlast]
    simp only [if_neg (not_le.mpr hlt)]
  refine ⟨hfi, ?_⟩
  rw [hfi, List.findIdx_lt_length]
  exact ⟨l, List.mem_of_getLast?_eq_some hlast, by simpa using hlt⟩

theorem CalculateInRange_defined (self : CCreditCardAccount) (b : ℚ) (K : Int)
    (hs : self.CycleSorted) (hne : self.mTransactions ≠ []) :
    ∃ v, self.CalculateInRange b 0 self.mTransactions.length K = some v := by
  obtain ⟨t, r, h⟩ := List.exists_cons_of_ne_nil hne
  have h0 : self.mTransactions[0]? = some t := by rw [h]; simp
  unfold CalculateInRange
  simp only [h0]
  have := CalculateInRangeLoop_defined self K hs self.mTransactions.length [] self.mTransactions
    (self.mTransactions.length + 1) b (GetCycle t.mTime self.mStartDate) rfl rfl le_rfl
  simpa using this

theorem AddTransaction_mid (self : CCreditCardAccount) (value : ℚ) (day : Int)
    (type : TransactionType) (l tx : CTransaction)
    (htx : tx = CTransactionFactory.CreateTransaction value self.mStartDate day type)
    (hlast : self.mTransactions.getLast? = some l) (hs : self.TimeSorted)
    (hlt : tx.mTime < l.mTime) :
    ∃ balance : ℚ, self.AddTransaction value day type =
      some (true,
        { self with
          mTransactions := self.mTransactions.insertIdx
            (self.mTransactions.findIdx (fun iter => decide (tx.mTime < iter.mTime))) tx,
          mBalance := balance,
          mBalanceDate := tx.mTime }) := by
  obtain ⟨hfi, hflt⟩ := FindInsertIter_mid self _ l hlast hlt
  let added : CCreditCardAccount :=
    { self with
      mTransactions := self.mTransactions.insertIdx
        (self.mTransactions.findIdx (fun iter => decide (tx.mTime < iter.mTime))) tx }
  have hsorted : added.CycleSorted :=
    CycleSorted_of_TimeSorted _ (insert_keeps_TimeSorted _ _ hs)
  have hne : added.mTransactions ≠ [] := by
    intro hnil
    have := congrArg List.length hnil
    simp only [added] at this
    rw [List.length_insertIdx _ _ (List.findIdx_le_length _)] at this
    simp at this
  obtain ⟨v, hv⟩ := CalculateInRange_defined added self.mBalance
    (GetCycle tx.mTime self.mStartDate) hsorted hne
  refine ⟨v, ?_⟩
  unfold AddTransaction
  rw [← htx]
  simp only [hfi] at hflt ⊢
  rw [if_neg (by omega)]
  simp only [added] at hv
  rw [hv]
  simp

theorem CalculateInRangeLoop_exit_pos (self : CCreditCardAccount) (e : Nat) (K : Int)
    (fuel : Nat) (b : ℚ) (p : Int) (hfuel : 0 < fuel) :
    self.CalculateInRangeLoop e K fuel b self.mTransactions.length p
      = some (self.AccrueCycles (K - p).toNat b) := by
  obtain ⟨f, rfl⟩ : ∃ f, fuel = f + 1 := ⟨fuel - 1, by omega⟩
  exact CalculateInRangeLoop_exit self e K f b p

theorem CalculateInRange_last (self : CCreditCardAccount) (pre : List CTransaction)
    (tx : CTransaction) (b : ℚ) (h : self.mTransactions = pre ++ [tx]) :
    self.CalculateInRange b pre.length self.mTransactions.length
        (GetCycle tx.mTime self.mStartDate)
      = some (ApplyTransaction b tx) := by
  have hget : self.mTransactions[pre.length]? = some tx := by rw [h]; simp
  have hlen : self.mTransactions.length = pre.length + 1 := by rw [h]; simp
  have h' : self.mTransactions = pre ++ [tx] ++ [] := by rw [h]; simp
  unfold CalculateInRange
  simp only [hget]
  rw [CalculateInRangeLoop_step self _ _ pre [tx] [] (self.CycleOf tx) _ b _ h' (by simp)
    (by simp) (by simp) (by simp) (by omega)]
  rw [if_pos rfl]
  have hc : self.CycleOf tx = GetCycle tx.mTime self.mStartDate := rfl
  rw [hc, if_neg (lt_irrefl _), CalculateInRangeLoop_exit_pos _ _ _ _ _ _ (by omega)]
  simp [AccrueCycles]

theorem FindInsertIter_append (self : CCreditCardAccount) (time : Int)
    (h : self.mTransactions = [] ∨
      ∃ l, self.mTransactions.getLast? = some l ∧ l.mTime ≤ time) :
    self.FindInsertIter time = self.mTransactions.length := by
  unfold FindInsertIter
  rcases h with h | ⟨l, hl, hle⟩
  · rw [h]; simp
  · rw [hl]; simp only [if_pos hle]

theorem AddTransaction_same_cycle (self : CCreditCardAccount) (value : ℚ) (day : Int)
    (type : TransactionType) (tx : CTransaction)
    (htx : tx = CTransactionFactory.CreateTransaction value self.mStartDate day type)
    (h : self.mTransactions = [] ∨
      ∃ l, self.mTransactions.getLast? = some l ∧ l.mTime ≤ tx.mTime
        ∧ GetCycle tx.mTime self.mStartDate ≤ GetCycle l.mTime self.mStartDate) :
    self.AddTransaction value day type =
      if ApplyTransaction self.mBalance tx - self.mCreditLimit > 0.000001
          ∨ ApplyTransaction self.mBalance tx < 0 then
        some (false, self)
      else
        some (true,
          { self with
            mTransactions := self.mTransactions ++ [tx],
            mBalance := ApplyTransaction self.mBalance tx,
            mBalanceDate := tx.mTime }) := by
  have hfi : self.FindInsertIter tx.mTime = self.mTransactions.length := by
    apply FindInsertIter_append
    rcases h with h | ⟨l, hl, hle, _⟩
    · exact Or.inl h
    · exact Or.inr ⟨l, hl, hle⟩
  have hclosed : (if self.GetTransactionCount > 0 then
        if GetCycle tx.mTime self.mStartDate - (self.GetCycleCount - 1) > 0 then
          self.CalculateInRange
            ((self.mTransactions.drop (self.CycleBegin (self.GetCycleCount - 1))).foldl
              (RemoveLastCycle tx) self.mBalance)
            (self.CycleBegin (self.GetCycleCount - 1)) self.mTransactions.length
            (GetCycle tx.mTime self.mStartDate)
        else some self.mBalance
      else some self.mBalance) = some self.mBalance := by
    rcases h with h | ⟨l, hl, _, hc⟩
    · simp [GetTransactionCount, h]
    · have : self.GetCycleCount = GetCycle l.mTime self.mStartDate + 1 := by
        unfold GetCycleCount; rw [hl]
      rw [this]
      split
      · rw [if_neg (by omega)]
      · rfl
  let added : CCreditCardAccount := { self with mTransactions := self.mTransactions ++ [tx] }
  have hcalc := CalculateInRange_last added self.mTransactions tx self.mBalance rfl
  unfold AddTransaction
  rw [← htx]
  simp only [hfi, if_true, hclosed, List.insertIdx_length_self]
  simp only [added] at hcalc
  rw [hcalc]
  simp only [List.length_append, List.length_singleton] at *
  split
  · congr 2
    cases self
    simp only [mk.injEq, and_true]
    rw [← List.insertIdx_length_self, List.eraseIdx_insertIdx]
  · rfl

/-- C2. `CalculateCycle` on the transactions `t1 .. tn` of a range returns
`b_n + (apr / 365) * (sum of b_(i-1) * (d_i - d_(i-1)) + b_n * (30 - d_n))` with
`b_i = b + s_1 + ... + s_i` and `d_0 = 0`: each gap is charged on the balance held at its
start and the interest is added once, at the end. -/
theorem C2_CalculateCycle_closed_form (self : CCreditCardAccount) (pre txs post : List CTransaction)
    (b : ℚ) :
    CalculateCycle { self with mTransactions := pre ++ txs ++ post } b pre.length
        (pre.length + txs.length) false
      = some (CycleFormula self.mAPR self.mStartDate b txs) := by
  rw [CalculateCycle_of_block _ pre txs post b false rfl, CalculateCycleOn_eq_formula]

/-- C5. A call of `AddCharge` or `AddPayment` that returns `false` leaves the account as it
was: same ledger (hence transaction count), same cached balance and balance date. -/
theorem C5_rejection_leaves_state (self after : CCreditCardAccount) (value : ℚ) (day : Int)
    (h : self.AddCharge value day = some (false, after)
      ∨ self.AddPayment value day = some (false, after)) :
    after = self ∧ after.mTransactions = self.mTransactions
      ∧ after.GetTransactionCount = self.GetTransactionCount
      ∧ after.GetCurrentBalance = self.GetCurrentBalance := by
  have key : ∀ type, self.AddTransaction value day type = some (false, after) → after = self := by
    intro type h
    unfold AddTransaction at h
    simp only [] at h
    split at h
    · split at h
      · simp at h
      · split at h
        · simp at h
        · split at h
          · simp only [Option.some.injEq, Prod.mk.injEq, true_and] at h
            rw [← h, List.eraseIdx_insertIdx]
          · simp at h
    · split at h
      · simp at h
      · split at h <;> simp at h
  have : after = self := by
    rcases h with h | h
    · exact key _ h
    · exact key _ h
  subst this
  exact ⟨rfl, rfl, rfl, rfl⟩

theorem C5_rejection_leaves_state_witness :
    oneChargeAccount.AddPayment 600 0 = some (false, oneChargeAccount)
      ∧ oneChargeAccount.GetTransactionCount = 1 :=
  ⟨by with_unfolding_all rfl,
    (C5_rejection_leaves_state oneChargeAccount oneChargeAccount 600 0
      (Or.inr (by with_unfolding_all rfl))).2.2.1⟩

theorem AddTransaction_same_cycle_flag (self : CCreditCardAccount) (value : ℚ) (day : Int)
    (type : TransactionType)
    (h : self.mTransactions = [] ∨
      ∃ l, self.mTransactions.getLast? = some l
        ∧ l.mTime ≤ CTimeHelper.AddDays self.mStartDate day
        ∧ GetCycle (CTimeHelper.AddDays self.mStartDate day) self.mStartDate
            = GetCycle l.mTime self.mStartDate) :
    ∃ after, self.AddTransaction value day type =
      some (decide (0 ≤ ApplyTransaction self.mBalance
              (CTransactionFactory.CreateTransaction value self.mStartDate day type)
          ∧ ApplyTransaction self.mBalance
              (CTransactionFactory.CreateTransaction value self.mStartDate day type)
            - self.mCreditLimit ≤ 0.000001), after) := by
  have h' : self.mTransactions = [] ∨
      ∃ l, self.mTransactions.getLast? = some l
        ∧ l.mTime ≤ (CTransactionFactory.CreateTransaction value self.mStartDate day type).mTime
        ∧ GetCycle (CTransactionFactory.CreateTransaction value self.mStartDate day type).mTime
            self.mStartDate ≤ GetCycle l.mTime self.mStartDate := by
    rcases h with h | ⟨l, hl, hle, hc⟩
    · exact Or.inl h
    · exact Or.inr ⟨l, hl, hle, le_of_eq hc⟩
  rw [AddTransaction_same_cycle self value day type _ rfl h']
  split
  · rename_i hrej
    refine ⟨self, ?_⟩
    congr 2
    symm
    rw [decide_eq_false_iff_not]
    rintro ⟨h0, h1⟩
    rcases hrej with hrej | hrej
    · exact absurd h1 (not_le.mpr hrej)
    · exact absurd h0 (not_le.mpr hrej)
  · rename_i hacc
    refine ⟨_, congrArg some (Prod.ext ?_ rfl)⟩
    symm
    simp only [decide_eq_true_iff]
    push_neg at hacc
    exact ⟨hacc.2, hacc.1⟩

/-- C7. For a transaction that is chronologically newest and in the cycle of the last
transaction, or the first transaction of an empty ledger, `AddCharge(a, d)` returns `true`
exactly when `0 <= b + a` and `b + a - limit <= 1e-6`, and `AddPayment(a, d)` exactly when
`0 <= b - a` and `b - a - limit <= 1e-6`, `b` being the cached balance.  With a limit that
is not negative, a payment equal to the balance and a charge that brings the balance exactly
to the limit are accepted. -/
theorem C7_same_cycle_acceptance (self : CCreditCardAccount) (a : ℚ) (d : Int)
    (h : self.mTransactions = [] ∨
      ∃ l, self.mTransactions.getLast? = some l
        ∧ l.mTime ≤ CTimeHelper.AddDays self.mStartDate d
        ∧ GetCycle (CTimeHelper.AddDays self.mStartDate d) self.mStartDate
            = GetCycle l.mTime self.mStartDate) :
    (∃ after, self.AddCharge a d =
        some (decide (0 ≤ self.mBalance + a ∧ self.mBalance + a - self.mCreditLimit ≤ 0.000001),
          after))
      ∧ (∃ after, self.AddPayment a d =
        some (decide (0 ≤ self.mBalance - a ∧ self.mBalance - a - self.mCreditLimit ≤ 0.000001),
          after))
      ∧ (0 ≤ self.mCreditLimit →
          (∃ after, self.AddPayment self.mBalance d = some (true, after))
          ∧ (∃ after, self.AddCharge (self.mCreditLimit - self.mBalance) d
              = some (true, after))) := by
  refine ⟨AddTransaction_same_cycle_flag self a d TransactionType.CHARGE h,
    AddTransaction_same_cycle_flag self a d TransactionType.PAYMENT h, ?_⟩
  intro hlim
  constructor
  · obtain ⟨after, hafter⟩ :=
      AddTransaction_same_cycle_flag self self.mBalance d TransactionType.PAYMENT h
    refine ⟨after, ?_⟩
    unfold AddPayment
    rw [hafter]
    congr 2
    rw [decide_eq_true_iff]
    simp only [ApplyTransaction, CTransactionFactory.CreateTransaction, sub_self]
    constructor
    · exact le_refl _
    · norm_num; linarith
  · obtain ⟨after, hafter⟩ :=
      AddTransaction_same_cycle_flag self (self.mCreditLimit - self.mBalance) d
        TransactionType.CHARGE h
    refine ⟨after, ?_⟩
    unfold AddCharge
    rw [hafter]
    congr 2
    rw [decide_eq_true_iff]
    simp only [ApplyTransaction, CTransactionFactory.CreateTransaction]
    constructor
    · linarith
    · norm_num

theorem C7_same_cycle_acceptance_witness :
    ∃ after, oneChargeAccount.AddPayment 500 0 = some (true, after) :=
  ((C7_same_cycle_acceptance oneChargeAccount 500 0
    (Or.inr ⟨sampleTx 500 TransactionType.CHARGE 0, by decide, by decide, by decide⟩)).2.2
      (by with_unfolding_all decide)).1

/-- C8. For an accepted transaction that is chronologically newest and in the cycle of the
last transaction, or the first transaction of an empty ledger, the cached balance afterwards
is `b + a` for a charge and `b - a` for a payment, `b` being the cached balance before: no
interest is added. -/
theorem C8_same_cycle_balance (self after : CCreditCardAccount) (a : ℚ) (d : Int)
    (h : self.mTransactions = [] ∨
      ∃ l, self.mTransactions.getLast? = some l
        ∧ l.mTime ≤ CTimeHelper.AddDays self.mStartDate d
        ∧ GetCycle (CTimeHelper.AddDays self.mStartDate d) self.mStartDate
            = GetCycle l.mTime self.mStartDate) :
    (self.AddCharge a d = some (true, after) →
        after.GetCurrentBalance.1 = self.mBalance + a)
      ∧ (self.AddPayment a d = some (true, after) →
        after.GetCurrentBalance.1 = self.mBalance - a) := by
  have key : ∀ type, self.AddTransaction a d type = some (true, after) →
      after.mBalance = ApplyTransaction self.mBalance
        (CTransactionFactory.CreateTransaction a self.mStartDate d type) := by
    intro type ht
    have h' : self.mTransactions = [] ∨
        ∃ l, self.mTransactions.getLast? = some l
          ∧ l.mTime ≤ (CTransactionFactory.CreateTransaction a self.mStartDate d type).mTime
          ∧ GetCycle (CTransactionFactory.CreateTransaction a self.mStartDate d type).mTime
              self.mStartDate ≤ GetCycle l.mTime self.mStartDate := by
      rcases h with h | ⟨l, hl, hle, hc⟩
      · exact Or.inl h
      · exact Or.inr ⟨l, hl, hle, le_of_eq hc⟩
    rw [AddTransaction_same_cycle self a d type _ rfl h'] at ht
    split at ht
    · simp at ht
    · simp only [Option.some.injEq, Prod.mk.injEq, true_and] at ht
      rw [← ht]
  constructor
  · intro hc
    exact key _ hc
  · intro hp
    exact key _ hp

theorem C8_same_cycle_balance_witness :
    oneChargeAccount.AddCharge 100 5 = some (true, twoChargesAccount)
      ∧ twoChargesAccount.GetCurrentBalance.1 = 500 + 100 :=
  ⟨by with_unfolding_all rfl,
    (C8_same_cycle_balance oneChargeAccount twoChargesAccount 100 5
      (Or.inr ⟨sampleTx 500 TransactionType.CHARGE 0, by decide, by decide, by decide⟩)).1
      (by with_unfolding_all rfl)⟩

theorem AddTransaction_mid_kept (self : CCreditCardAccount) (value : ℚ) (day : Int)
    (type : TransactionType) (l : CTransaction)
    (hlast : self.mTransactions.getLast? = some l) (hs : self.TimeSorted)
    (hlt : CTimeHelper.AddDays self.mStartDate day < l.mTime) :
    ∃ after, self.AddTransaction value day type = some (true, after)
      ∧ after.GetTransactionCount = self.GetTransactionCount + 1
      ∧ CTransactionFactory.CreateTransaction value self.mStartDate day type
          ∈ after.mTransactions := by
  obtain ⟨balance, hb⟩ := AddTransaction_mid self value day type l
    (CTransactionFactory.CreateTransaction value self.mStartDate day type) rfl hlast hs hlt
  refine ⟨_, hb, ?_, ?_⟩
  · simp only [GetTransactionCount]
    exact List.length_insertIdx _ _ (List.findIdx_le_length _)
  · exact (List.mem_insertIdx (List.findIdx_le_length _)).mpr (Or.inl rfl)

/-- C10. On a non-empty ledger sorted by time, a call of `AddCharge` or `AddPayment` whose
timestamp is strictly earlier than that of the last transaction returns `true` and keeps the
transaction: the transaction count grows by one, whatever the recomputed balance is. -/
theorem C10_mid_history_always_kept (self : CCreditCardAccount) (value : ℚ) (day : Int)
    (l : CTransaction) (hlast : self.mTransactions.getLast? = some l) (hs : self.TimeSorted)
    (hlt : CTimeHelper.AddDays self.mStartDate day < l.mTime) :
    (∃ after, self.AddCharge value day = some (true, after)
        ∧ after.GetTransactionCount = self.GetTransactionCount + 1
        ∧ CTransactionFactory.CreateTransaction value self.mStartDate day
            TransactionType.CHARGE ∈ after.mTransactions)
      ∧ (∃ after, self.AddPayment value day = some (true, after)
        ∧ after.GetTransactionCount = self.GetTransactionCount + 1
        ∧ CTransactionFactory.CreateTransaction value self.mStartDate day
            TransactionType.PAYMENT ∈ after.mTransactions) :=
  ⟨AddTransaction_mid_kept self value day TransactionType.CHARGE l hlast hs hlt,
    AddTransaction_mid_kept self value day TransactionType.PAYMENT l hlast hs hlt⟩

theorem C10_mid_history_always_kept_witness :
    (∃ after, nearLimitAccount.AddCharge 400 4 = some (true, after)
        ∧ after.GetTransactionCount = nearLimitAccount.GetTransactionCount + 1
        ∧ CTransactionFactory.CreateTransaction 400 nearLimitAccount.mStartDate 4
            TransactionType.CHARGE ∈ after.mTransactions)
      ∧ (nearLimitAccount.AddCharge 400 4).map (fun r => r.2.mBalance) = some 2320 :=
  ⟨(C10_mid_history_always_kept nearLimitAccount 400 4 (sampleTx 460 TransactionType.CHARGE 8)
      (by decide) (by unfold TimeSorted; decide) (by decide)).1,
    by with_unfolding_all rfl⟩

/-- C9 (the code at the failing input). With charges of 500 on day 0 and 100 on day 5 in the
ledger, `GetBalanceOnDay 0` is 600: the charge of day 5 is counted.  On the ledger without
the transactions after day 0 it is 500. -/
theorem C9_later_transactions_counted :
    oneChargeAccount.AddCharge 100 5 = some (true, twoChargesAccount)
      ∧ twoChargesAccount.GetBalanceOnDay 0 = some 600
      ∧ GetBalanceOnDay
          { twoChargesAccount with
            mTransactions := twoChargesAccount.mTransactions.filter (fun t =>
              decide (GetDayOfTransaction t twoChargesAccount.mStartDate ≤ 0)) } 0
        = some 500 :=
  ⟨by with_unfolding_all rfl, by with_unfolding_all rfl, by with_unfolding_all rfl⟩

/-- C6 (the code at the failing input). After a charge of 500 on day 0 the balance on day 31
is `37550 / 73` (about 514.38), so a charge of 400 on day 31 stays inside the limit of 1000,
yet `AddCharge 400 31` returns `false`. -/
theorem C6_next_cycle_charge_rejected :
    (CCreditCardAccount.new (35 / 100) 1000 1330300800).AddCharge 500 0
        = some (true, oneChargeAccount)
      ∧ oneChargeAccount.GetBalanceOnDay 31 = some (37550 / 73)
      ∧ (0 : ℚ) ≤ 37550 / 73 + 400
      ∧ (37550 / 73 + 400 - oneChargeAccount.mCreditLimit : ℚ) ≤ 0.000001
      ∧ oneChargeAccount.AddCharge 400 31 = some (false, oneChargeAccount) :=
  ⟨by with_unfolding_all rfl, by with_unfolding_all rfl, by norm_num,
    by norm_num [oneChargeAccount, sampleAccount], by with_unfolding_all rfl⟩

/-- C4 (the code at the failing input). After a charge of 100 on day 0, `AddCharge 50 31`
returns `true` and caches the balance `14915 / 73` (about 204.32), while `GetBalanceOnDay 31`
on the resulting account is `11160 / 73` (about 152.88). -/
theorem C4_cache_differs_from_balance_on_day :
    (CCreditCardAccount.new (35 / 100) 1000 1330300800).AddCharge 100 0
        = some (true, smallChargeAccount)
      ∧ smallChargeAccount.AddCharge 50 31 = some (true, smallChargeNextCycleAccount)
      ∧ smallChargeNextCycleAccount.GetCurrentBalance.1 = 14915 / 73
      ∧ smallChargeNextCycleAccount.GetBalanceOnDay 31 = some (11160 / 73) :=
  ⟨by with_unfolding_all rfl, by with_unfolding_all rfl, by with_unfolding_all rfl,
    by with_unfolding_all rfl⟩

/-- C18. For a time `t` whose day difference `n = DiffDays(t, start)` is not negative,
`GetCycle(t, start)` is `floor(n / 30)`, `DayInCycle(t, start)` is `n mod 30` and lies in
`0 .. 29`, and `30 * GetCycle + DayInCycle = n`. -/
theorem C18_cycle_and_day_in_cycle (t start : Int)
    (h : 0 ≤ CTimeHelper.DiffDays t start) :
    GetCycle t start = CTimeHelper.DiffDays t start / 30
      ∧ DayInCycle t start = CTimeHelper.DiffDays t start % 30
      ∧ 0 ≤ DayInCycle t start ∧ DayInCycle t start ≤ 29
      ∧ 30 * GetCycle t start + DayInCycle t start = CTimeHelper.DiffDays t start := by
  have h1 : GetCycle t start = CTimeHelper.DiffDays t start / 30 := by
    unfold GetCycle DAYS_PER_CYCLE
    exact Int.tdiv_eq_ediv h (by decide)
  have h2 : DayInCycle t start = CTimeHelper.DiffDays t start % 30 := by
    unfold DayInCycle DAYS_PER_CYCLE
    exact Int.tmod_eq_emod h (by decide)
  refine ⟨h1, h2, ?_, ?_, ?_⟩
  · rw [h2]; omega
  · rw [h2]; omega
  · rw [h1, h2]; omega

theorem C18_cycle_and_day_in_cycle_witness :
    GetCycle (1330300800 + 65 * 86400 + 3600) 1330300800 = 2
      ∧ DayInCycle (1330300800 + 65 * 86400 + 3600) 1330300800 = 5 := by
  have h := C18_cycle_and_day_in_cycle (1330300800 + 65 * 86400 + 3600) 1330300800 (by decide)
  have hd : CTimeHelper.DiffDays (1330300800 + 65 * 86400 + 3600) 1330300800 = 65 := by decide
  rw [hd] at h
  exact ⟨h.1, h.2.1⟩

/-- The transaction built by `CreateTransaction(value, &s, n, type)` keeps the value and the
type and has the timestamp `T = AddDays(s, n)`; the two midnights compared by `DiffDays` lie
exactly `n` days, `n * DAYS_TO_SECS` seconds, apart, so with `int` taken as `ℤ`
`DiffDays(T, s) = n`. -/
theorem DiffDays_CreateTransaction (value : ℚ) (s n : Int) (type : TransactionType) :
    CTimeHelper.DiffDays (CTransactionFactory.CreateTransaction value s n type).mTime s = n
      ∧ (CTransactionFactory.CreateTransaction value s n type).mValue = value
      ∧ (CTransactionFactory.CreateTransaction value s n type).mType = type
      ∧ (CTransactionFactory.CreateTransaction value s n type).mTime = CTimeHelper.AddDays s n
      ∧ CTimeHelper.GetStartOfDay (CTransactionFactory.CreateTransaction value s n type).mTime
          - CTimeHelper.GetStartOfDay s = n * DAYS_TO_SECS := by
  refine ⟨CTimeHelper.DiffDays_AddDays s n, rfl, rfl, rfl, ?_⟩
  rw [CTimeHelper.GetStartOfDay_eq, CTimeHelper.GetStartOfDay_eq]
  unfold CTransactionFactory.CreateTransaction DAYS_TO_SECS
  simp only
  omega

theorem AddTransaction_false_eq (self after : CCreditCardAccount) (value : ℚ) (day : Int)
    (type : TransactionType) (h : self.AddTransaction value day type = some (false, after)) :
    after = self := by
  unfold AddTransaction at h
  simp only [] at h
  split at h
  · split at h
    · simp at h
    · split at h
      · simp at h
      · split at h
        · simp only [Option.some.injEq, Prod.mk.injEq, true_and] at h
          rw [← h, List.eraseIdx_insertIdx]
        · simp at h
  · split at h
    · simp at h
    · split at h <;> simp at h

theorem AddTransaction_true_eq (self after : CCreditCardAccount) (value : ℚ) (day : Int)
    (type : TransactionType) (h : self.AddTransaction value day type = some (true, after)) :
    after =
      { self with
        mTransactions := self.mTransactions.insertIdx
          (self.FindInsertIter
            (CTransactionFactory.CreateTransaction value self.mStartDate day type).mTime)
          (CTransactionFactory.CreateTransaction value self.mStartDate day type),
        mBalance := after.mBalance,
        mBalanceDate :=
          (CTransactionFactory.CreateTransaction value self.mStartDate day type).mTime } := by
  unfold AddTransaction at h
  simp only [] at h
  split at h
  · split at h
    · simp at h
    · split at h
      · simp at h
      · split at h
        · simp at h
        · simp only [Option.some.injEq, Prod.mk.injEq, true_and] at h
          rw [← h]
  · split at h
    · simp at h
    · split at h <;>
      · simp only [Option.some.injEq, Prod.mk.injEq, true_and] at h
        rw [← h]

theorem FindInsertIter_le_length (self : CCreditCardAccount) (time : Int) :
    self.FindInsertIter time ≤ self.mTransactions.length := by
  unfold FindInsertIter
  split
  · split
    · exact le_refl _
    · exact List.findIdx_le_length _
  · exact List.findIdx_le_length _

theorem CalculateInRange_defined_at (self : CCreditCardAccount) (b : ℚ) (start : Nat) (K : Int)
    (hs : self.CycleSorted) (hstart : start < self.mTransactions.length) :
    ∃ v, self.CalculateInRange b start self.mTransactions.length K = some v := by
  have hget : self.mTransactions[start]? = some (self.mTransactions[start]) :=
    List.getElem?_eq_getElem hstart
  unfold CalculateInRange
  simp only [hget]
  have := CalculateInRangeLoop_defined self K hs (self.mTransactions.drop start).length
    (self.mTransactions.take start) (self.mTransactions.drop start)
    (self.mTransactions.length + 1) b
    (GetCycle (self.mTransactions[start]).mTime self.mStartDate) rfl
    (List.take_append_drop start self.mTransactions).symm
    (by simp)
  rw [List.length_take, Nat.min_eq_left (le_of_lt hstart)] at this
  exact this

theorem CycleBegin_last_lt (self : CCreditCardAccount) (l : CTransaction)
    (hl : self.mTransactions.getLast? = some l) :
    self.CycleBegin (self.GetCycleCount - 1) < self.mTransactions.length := by
  have hc : self.GetCycleCount = GetCycle l.mTime self.mStartDate + 1 := by
    unfold GetCycleCount; rw [hl]
  unfold CycleBegin
  rw [if_pos (by omega), List.findIdx_lt_length]
  refine ⟨l, List.mem_of_getLast?_eq_some hl, ?_⟩
  simp only [IsInCycle, decide_eq_true_eq]
  omega

theorem AddTransaction_append (self : CCreditCardAccount) (value : ℚ) (day : Int)
    (type : TransactionType) (tx : CTransaction)
    (htx : tx = CTransactionFactory.CreateTransaction value self.mStartDate day type)
    (hs : self.TimeSorted)
    (h : self.mTransactions = [] ∨
      ∃ l, self.mTransactions.getLast? = some l ∧ l.mTime ≤ tx.mTime) :
    ∃ balance : ℚ, self.AddTransaction value day type =
      if balance - self.mCreditLimit > 0.000001 ∨ balance < 0 then
        some (false, self)
      else
        some (true,
          { self with
            mTransactions := self.mTransactions ++ [tx],
            mBalance := balance,
            mBalanceDate := tx.mTime }) := by
  have hfi : self.FindInsertIter tx.mTime = self.mTransactions.length :=
    FindInsertIter_append self tx.mTime h
  have hclosed : ∃ b0 : ℚ, (if self.GetTransactionCount > 0 then
        if GetCycle tx.mTime self.mStartDate - (self.GetCycleCount - 1) > 0 then
          self.CalculateInRange
            ((self.mTransactions.drop (self.CycleBegin (self.GetCycleCount - 1))).foldl
              (RemoveLastCycle tx) self.mBalance)
            (self.CycleBegin (self.GetCycleCount - 1)) self.mTransactions.length
            (GetCycle tx.mTime self.mStartDate)
        else some self.mBalance
      else some self.mBalance) = some b0 := by
    rcases h with h | ⟨l, hl, _⟩
    · exact ⟨self.mBalance, by simp [GetTransactionCount, h]⟩
    · split
      · split
        · exact CalculateInRange_defined_at self _ _ _ (CycleSorted_of_TimeSorted self hs)
            (CycleBegin_last_lt self l hl)
        · exact ⟨_, rfl⟩
      · exact ⟨_, rfl⟩
  obtain ⟨b0, hb0⟩ := hclosed
  let added : CCreditCardAccount := { self with mTransactions := self.mTransactions ++ [tx] }
  have hcalc := CalculateInRange_last added self.mTransactions tx b0 rfl
  refine ⟨ApplyTransaction b0 tx, ?_⟩
  unfold AddTransaction
  rw [← htx]
  simp only [hfi, if_true, hb0, List.insertIdx_length_self]
  simp only [added] at hcalc
  rw [hcalc]
  simp only [List.length_append, List.length_singleton] at *
  split
  · congr 2
    cases self
    simp only [mk.injEq, and_true]
    rw [← List.insertIdx_length_self, List.eraseIdx_insertIdx]
  · rfl

theorem TimeSorted_append (self : CCreditCardAccount) (tx : CTransaction)
    (hs : self.TimeSorted)
    (h : self.mTransactions = [] ∨
      ∃ l, self.mTransactions.getLast? = some l ∧ l.mTime ≤ tx.mTime) :
    (self.mTransactions ++ [tx]).Pairwise (fun a b => a.mTime ≤ b.mTime) := by
  unfold TimeSorted at hs
  rw [List.pairwise_append]
  refine ⟨hs, by simp, ?_⟩
  intro x hx y hy
  simp only [List.mem_singleton] at hy
  subst hy
  rcases h with h | ⟨l, hl, hle⟩
  · rw [h] at hx; simp at hx
  · have hne : self.mTransactions ≠ [] := List.ne_nil_of_mem hx
    have hsplit := List.dropLast_append_getLast hne
    rw [List.getLast?_eq_getLast _ hne] at hl
    have hl' : self.mTransactions.getLast hne = l := Option.some.inj hl
    rw [hl'] at hsplit
    rw [← hsplit] at hx hs
    rcases List.mem_append.mp hx with hx | hx
    · exact le_trans ((List.pairwise_append.mp hs).2.2 x hx l (by simp)) hle
    · simp at hx; rw [hx]; exact hle

theorem append_or_mid (self : CCreditCardAccount) (time : Int) :
    (self.mTransactions = [] ∨
        ∃ l, self.mTransactions.getLast? = some l ∧ l.mTime ≤ time)
      ∨ ∃ l, self.mTransactions.getLast? = some l ∧ time < l.mTime := by
  cases hl : self.mTransactions.getLast? with
  | none => exact Or.inl (Or.inl (List.getLast?_eq_none_iff.mp hl))
  | some l =>
    by_cases hle : l.mTime ≤ time
    · exact Or.inl (Or.inr ⟨l, rfl, hle⟩)
    · exact Or.inr ⟨l, rfl, not_le.mp hle⟩

theorem AddTransaction_keeps_sorted (self : CCreditCardAccount) (value : ℚ) (day : Int)
    (type : TransactionType) (hs : self.TimeSorted) :
    ∃ flag after, self.AddTransaction value day type = some (flag, after)
      ∧ after.TimeSorted ∧ after.mStartDate = self.mStartDate
      ∧ after.mAPR = self.mAPR ∧ after.mCreditLimit = self.mCreditLimit := by
  rcases append_or_mid self
    (CTransactionFactory.CreateTransaction value self.mStartDate day type).mTime with h | h
  · obtain ⟨balance, hb⟩ := AddTransaction_append self value day type _ rfl hs h
    rw [hb]
    split
    · exact ⟨false, self, rfl, hs, rfl, rfl, rfl⟩
    · exact ⟨true, _, rfl, TimeSorted_append self _ hs h, rfl, rfl, rfl⟩
  · obtain ⟨l, hl, hlt⟩ := h
    obtain ⟨balance, hb⟩ := AddTransaction_mid self value day type l _ rfl hl hs hlt
    exact ⟨true, _, hb, insert_keeps_TimeSorted _ _ hs, rfl, rfl, rfl⟩

theorem DoCall_eq (self : CCreditCardAccount) (c : Call) :
    self.DoCall c = self.AddTransaction c.value c.day c.kind := by
  unfold DoCall AddCharge AddPayment
  cases c.kind <;> rfl

theorem RunCalls_keeps_sorted :
    ∀ (calls : List Call) (acct : CCreditCardAccount), acct.TimeSorted →
      ∃ final, RunCalls acct calls = some final ∧ final.TimeSorted := by
  intro calls
  induction calls with
  | nil => intro acct hs; exact ⟨acct, rfl, hs⟩
  | cons c cs ih =>
    intro acct hs
    obtain ⟨flag, after, hcall, hsorted, _⟩ :=
      AddTransaction_keeps_sorted acct c.value c.day c.kind hs
    obtain ⟨final, hfinal, hfs⟩ := ih after hsorted
    refine ⟨final, ?_, hfs⟩
    rw [RunCalls, DoCall_eq, hcall]
    exact hfinal

/-- C12. For a new account and every sequence of `AddCharge` and `AddPayment` calls, in any
order of days and whether accepted or rejected, every call returns and the timestamps of the
ledger are non-decreasing after each of them (after the first `n` calls, for every `n`). -/
theorem C12_ledger_stays_sorted (apr limit : ℚ) (startDate : Int) (calls : List Call)
    (n : Nat) :
    ∃ acct, RunCalls (CCreditCardAccount.new apr limit startDate) (calls.take n) = some acct
      ∧ acct.mTransactions.Pairwise (fun a b => a.mTime ≤ b.mTime) :=
  RunCalls_keeps_sorted (calls.take n) (CCreditCardAccount.new apr limit startDate)
    (by unfold TimeSorted CCreditCardAccount.new; simp)

theorem insertIdx_eq_take_drop {α : Type} (a : α) :
    ∀ (i : Nat) (l : List α), i ≤ l.length → l.insertIdx i a = l.take i ++ a :: l.drop i := by
  intro i
  induction i with
  | zero => intro l _; simp
  | succ k ih =>
    intro l hl
    cases l with
    | nil => simp at hl
    | cons x xs =>
      rw [List.insertIdx_succ_cons, ih xs (by simpa using hl)]
      simp

theorem take_drop_findIdx_later (time : Int) :
    ∀ l : List CTransaction, l.Pairwise (fun a b => a.mTime ≤ b.mTime) →
      (∀ x ∈ l.take (l.findIdx (fun iter => decide (time < iter.mTime))), x.mTime ≤ time)
      ∧ (∀ x ∈ l.drop (l.findIdx (fun iter => decide (time < iter.mTime))), time < x.mTime) := by
  intro l
  induction l with
  | nil => intro _; simp
  | cons a l ih =>
    intro hs
    rw [List.pairwise_cons] at hs
    rw [List.findIdx_cons]
    by_cases h : time < a.mTime
    · simp only [h, decide_True, cond_true, List.take_zero, List.drop_zero]
      refine ⟨by simp, ?_⟩
      intro x hx
      rcases List.mem_cons.mp hx with hx | hx
      · rw [hx]; exact h
      · exact lt_of_lt_of_le h (hs.1 x hx)
    · simp only [h, decide_False, cond_false, List.take_succ_cons, List.drop_succ_cons]
      obtain ⟨h1, h2⟩ := ih hs.2
      refine ⟨?_, h2⟩
      intro x hx
      rcases List.mem_cons.mp hx with hx | hx
      · rw [hx]; exact not_lt.mp h
      · exact h1 x hx

theorem insert_position (self : CCreditCardAccount) (tx : CTransaction) (hs : self.TimeSorted) :
    ∃ before later, self.mTransactions = before ++ later
      ∧ self.mTransactions.insertIdx (self.FindInsertIter tx.mTime) tx = before ++ tx :: later
      ∧ (∀ x ∈ before, x.mTime ≤ tx.mTime) ∧ (∀ x ∈ later, tx.mTime < x.mTime) := by
  refine ⟨self.mTransactions.take (self.FindInsertIter tx.mTime),
    self.mTransactions.drop (self.FindInsertIter tx.mTime),
    (List.take_append_drop _ _).symm,
    insertIdx_eq_take_drop tx _ _ (FindInsertIter_le_length self tx.mTime), ?_⟩
  rcases append_or_mid self tx.mTime with h | ⟨l, hl, hlt⟩
  · rw [FindInsertIter_append self tx.mTime h]
    simp only [List.take_length, List.drop_length, List.not_mem_nil, false_implies,
      implies_true, and_true]
    intro x hx
    exact (List.pairwise_append.mp (TimeSorted_append self tx hs h)).2.2 x hx tx (by simp)
  · rw [(FindInsertIter_mid self tx.mTime l hl hlt).1]
    exact take_drop_findIdx_later tx.mTime self.mTransactions hs

theorem AddTransaction_true_ledger (self after : CCreditCardAccount) (value : ℚ) (day : Int)
    (type : TransactionType) (h : self.AddTransaction value day type = some (true, after)) :
    after.mTransactions = self.mTransactions.insertIdx
        (self.FindInsertIter
          (CTransactionFactory.CreateTransaction value self.mStartDate day type).mTime)
        (CTransactionFactory.CreateTransaction value self.mStartDate day type)
      ∧ after.mBalanceDate = CTimeHelper.AddDays self.mStartDate day := by
  have := AddTransaction_true_eq self after value day type h
  constructor
  · rw [this]
  · rw [this]; rfl

/-- C13. On a ledger sorted by time, a kept transaction is placed directly after all existing
transactions whose timestamp is less than or equal to its own and directly before all those
whose timestamp is strictly greater: among equal timestamps the new transaction comes
last. -/
theorem C13_insert_position (self after : CCreditCardAccount) (value : ℚ) (day : Int)
    (type : TransactionType) (hs : self.TimeSorted)
    (hkept : (type = TransactionType.CHARGE ∧ self.AddCharge value day = some (true, after))
      ∨ (type = TransactionType.PAYMENT ∧ self.AddPayment value day = some (true, after))) :
    ∃ before later, self.mTransactions = before ++ later
      ∧ after.mTransactions
          = before ++ CTransactionFactory.CreateTransaction value self.mStartDate day type
              :: later
      ∧ (∀ x ∈ before, x.mTime ≤ CTimeHelper.AddDays self.mStartDate day)
      ∧ (∀ x ∈ later, CTimeHelper.AddDays self.mStartDate day < x.mTime) := by
  have h : self.AddTransaction value day type = some (true, after) := by
    rcases hkept with ⟨ht, h⟩ | ⟨ht, h⟩ <;> · rw [ht]; exact h
  obtain ⟨before, later, h1, h2, h3, h4⟩ := insert_position self
    (CTransactionFactory.CreateTransaction value self.mStartDate day type) hs
  refine ⟨before, later, h1, ?_, h3, h4⟩
  rw [(AddTransaction_true_ledger self after value day type h).1, h2]

theorem C13_insert_position_witness :
    ∃ before later, nearLimitAccount.mTransactions = before ++ later
      ∧ (sampleAccount
            [sampleTx 500 TransactionType.CHARGE 0, sampleTx 400 TransactionType.CHARGE 0,
              sampleTx 460 TransactionType.CHARGE 8] 2320 1330300800).mTransactions
          = before ++ CTransactionFactory.CreateTransaction 400 nearLimitAccount.mStartDate 0
              TransactionType.CHARGE :: later
      ∧ (∀ x ∈ before, x.mTime ≤ CTimeHelper.AddDays nearLimitAccount.mStartDate 0)
      ∧ (∀ x ∈ later, CTimeHelper.AddDays nearLimitAccount.mStartDate 0 < x.mTime) :=
  C13_insert_position nearLimitAccount _ 400 0 TransactionType.CHARGE
    (by unfold TimeSorted; decide) (Or.inl ⟨rfl, by with_unfolding_all rfl⟩)

theorem sublist_insertIdx {α : Type} (a : α) (i : Nat) (l : List α) (h : i ≤ l.length) :
    l.Sublist (l.insertIdx i a) := by
  rw [insertIdx_eq_take_drop a i l h]
  have := (List.Sublist.refl (l.take i)).append (List.sublist_cons_self a (l.drop i))
  rwa [List.take_append_drop] at this

/-- C14. A call of `AddCharge` or `AddPayment` keeps every transaction of the ledger, unchanged
and in the same relative order (the old ledger is a sublist of the new one); the transaction
count grows by exactly one when the call returns `true` and stays when it returns `false`.  On
a ledger sorted by time both calls return. -/
theorem C14_ledger_frame (self : CCreditCardAccount) (value : ℚ) (day : Int) :
    (∀ (flag : Bool) (after : CCreditCardAccount),
        (self.AddCharge value day = some (flag, after)
          ∨ self.AddPayment value day = some (flag, after)) →
        self.mTransactions.Sublist after.mTransactions
          ∧ after.GetTransactionCount = self.GetTransactionCount + (if flag then 1 else 0))
      ∧ (self.TimeSorted →
        (∃ r, self.AddCharge value day = some r) ∧ (∃ r, self.AddPayment value day = some r)) := by
  have key : ∀ (type : TransactionType) (flag : Bool) (after : CCreditCardAccount),
      self.AddTransaction value day type = some (flag, after) →
      self.mTransactions.Sublist after.mTransactions
        ∧ after.GetTransactionCount = self.GetTransactionCount + (if flag then 1 else 0) := by
    intro type flag after h
    cases flag with
    | false =>
      rw [AddTransaction_false_eq self after value day type h]
      exact ⟨List.Sublist.refl _, by simp⟩
    | true =>
      have hl := (AddTransaction_true_ledger self after value day type h).1
      unfold GetTransactionCount
      rw [hl]
      exact ⟨sublist_insertIdx _ _ _ (FindInsertIter_le_length self _),
        by simpa using List.length_insertIdx _ _ (FindInsertIter_le_length self _)⟩
  constructor
  · intro flag after h
    rcases h with h | h
    · exact key _ flag after h
    · exact key _ flag after h
  · intro hs
    constructor
    · obtain ⟨flag, after, h, _⟩ :=
        AddTransaction_keeps_sorted self value day TransactionType.CHARGE hs
      exact ⟨_, h⟩
    · obtain ⟨flag, after, h, _⟩ :=
        AddTransaction_keeps_sorted self value day TransactionType.PAYMENT hs
      exact ⟨_, h⟩

theorem C14_ledger_frame_witness :
    oneChargeAccount.mTransactions.Sublist twoChargesAccount.mTransactions
      ∧ twoChargesAccount.GetTransactionCount = oneChargeAccount.GetTransactionCount + 1 :=
  (C14_ledger_frame oneChargeAccount 100 5).1 true twoChargesAccount
    (Or.inl (by with_unfolding_all rfl))

/-- C20. After a call of `AddCharge` or `AddPayment` for day `d` that returns `true`, on the
append path or the mid-history path, the timestamp returned by `GetCurrentBalance` is
`AddDays(s, d)`, the timestamp of the transaction just added. -/
theorem C20_balance_date_after_accept (self after : CCreditCardAccount) (value : ℚ) (day : Int)
    (h : self.AddCharge value day = some (true, after)
      ∨ self.AddPayment value day = some (true, after)) :
    after.GetCurrentBalance.2 = CTimeHelper.AddDays self.mStartDate day
      ∧ ((CTransactionFactory.CreateTransaction value self.mStartDate day
            TransactionType.CHARGE).mTime = CTimeHelper.AddDays self.mStartDate day
        ∧ (CTransactionFactory.CreateTransaction value self.mStartDate day
            TransactionType.PAYMENT).mTime = CTimeHelper.AddDays self.mStartDate day) := by
  refine ⟨?_, rfl, rfl⟩
  rcases h with h | h
  · exact (AddTransaction_true_ledger self after value day _ h).2
  · exact (AddTransaction_true_ledger self after value day _ h).2

theorem C20_balance_date_after_accept_witness :
    nearLimitAccount.AddCharge 400 4
        = some (true, sampleAccount
            [sampleTx 500 TransactionType.CHARGE 0, sampleTx 400 TransactionType.CHARGE 4,
              sampleTx 460 TransactionType.CHARGE 8] 2320 (1330300800 + 4 * 86400))
      ∧ (sampleAccount
            [sampleTx 500 TransactionType.CHARGE 0, sampleTx 400 TransactionType.CHARGE 4,
              sampleTx 460 TransactionType.CHARGE 8] 2320
            (1330300800 + 4 * 86400)).GetCurrentBalance.2
          = CTimeHelper.AddDays nearLimitAccount.mStartDate 4 :=
  ⟨by with_unfolding_all rfl,
    (C20_balance_date_after_accept nearLimitAccount _ 400 4
      (Or.inl (by with_unfolding_all rfl))).1⟩

theorem BalanceAfterCycles_single_charge (self : CCreditCardAccount) (a : ℚ)
    (h : self.mTransactions
      = [CTransactionFactory.CreateTransaction a self.mStartDate 0 TransactionType.CHARGE]) :
    ∀ n : Nat, self.BalanceAfterCycles (n + 1) = a * (1 + 30 * self.mAPR / 365) ^ (n + 1) := by
  have hday : CTimeHelper.DiffDays
      (CTransactionFactory.CreateTransaction a self.mStartDate 0 TransactionType.CHARGE).mTime
      self.mStartDate = 0 := CTimeHelper.DiffDays_AddDays _ 0
  have hcyc : self.CycleOf
      (CTransactionFactory.CreateTransaction a self.mStartDate 0 TransactionType.CHARGE) = 0 := by
    unfold CycleOf GetCycle
    rw [hday]; rfl
  intro n
  induction n with
  | zero =>
    rw [BalanceAfterCycles, BalanceAfterCycles, h]
    have hf : [CTransactionFactory.CreateTransaction a self.mStartDate 0
          TransactionType.CHARGE].filter (fun t => decide (self.CycleOf t = ((0 : Nat) : Int)))
        = [CTransactionFactory.CreateTransaction a self.mStartDate 0 TransactionType.CHARGE] := by
      rw [List.filter_eq_self]
      intro x hx
      simp only [List.mem_singleton] at hx
      rw [hx, hcyc]; rfl
    rw [hf]
    simp only [CalculateCycleOn, CalculateCycleLoop, DayInCycle, hday, ApplyTransaction,
      GetEndDayInterest, DAYS_PER_CYCLE]
    simp only [CTransactionFactory.CreateTransaction]
    norm_num
    ring
  | succ k ih =>
    rw [BalanceAfterCycles, ih, h]
    have hf : [CTransactionFactory.CreateTransaction a self.mStartDate 0
          TransactionType.CHARGE].filter
          (fun t => decide (self.CycleOf t = ((k + 1 : Nat) : Int))) = [] := by
      rw [List.filter_eq_nil_iff]
      intro x hx
      simp only [List.mem_singleton] at hx
      rw [hx, hcyc]
      simp only [decide_eq_true_eq]
      push_cast
      omega
    rw [hf, CalculateCycleOn_nil]
    unfold GetEndDayInterest DAYS_PER_CYCLE
    push_cast
    ring

theorem GetBalanceOnDay_single_charge (self : CCreditCardAccount) (a : ℚ) (d : Int)
    (h : self.mTransactions
      = [CTransactionFactory.CreateTransaction a self.mStartDate 0 TransactionType.CHARGE])
    (hd : 0 ≤ d) :
    self.GetBalanceOnDay d = some (a * (1 + 30 * self.mAPR / 365) ^ (d / 30).toNat) := by
  have hday : GetDayOfTransaction
      (CTransactionFactory.CreateTransaction a self.mStartDate 0 TransactionType.CHARGE)
      self.mStartDate = 0 := CTimeHelper.DiffDays_AddDays _ 0
  have hcyc : self.CycleOf
      (CTransactionFactory.CreateTransaction a self.mStartDate 0 TransactionType.CHARGE) = 0 := by
    unfold CycleOf GetCycle
    unfold GetDayOfTransaction at hday
    rw [hday]; rfl
  have htd : d.tdiv 30 = d / 30 := Int.tdiv_eq_ediv hd (by decide)
  rw [GetBalanceOnDay_eq_RangeResult self d
    (CTransactionFactory.CreateTransaction a self.mStartDate 0 TransactionType.CHARGE)
    (by rw [h]; rfl) (by unfold TimeSorted; rw [h]; simp)
    (by intro x hx; rw [h] at hx; simp only [List.mem_singleton] at hx; rw [hx, hday])
    (by rw [hday]; exact hd), hcyc, htd]
  unfold RangeResult
  by_cases hK : (0 : Int) < d / 30
  · rw [if_pos hK]
    obtain ⟨n, hn⟩ : ∃ n : Nat, (d / 30).toNat = n + 1 := ⟨(d / 30).toNat - 1, by omega⟩
    rw [hn, BalanceAfterCycles_single_charge self a h n]
  · rw [if_neg hK]
    have h0 : (d / 30).toNat = 0 := by omega
    rw [h0, h]
    have hf : [CTransactionFactory.CreateTransaction a self.mStartDate 0
          TransactionType.CHARGE].filter (fun t => decide (self.CycleOf t = 0))
        = [CTransactionFactory.CreateTransaction a self.mStartDate 0 TransactionType.CHARGE] := by
      rw [List.filter_eq_self]
      intro x hx
      simp only [List.mem_singleton] at hx
      rw [hx, hcyc]; rfl
    rw [hf]
    simp [BalanceAfterCycles, SignedAmount, CTransactionFactory.CreateTransaction]

/-- With `int` taken as `ℤ`: on a new account, for an amount `a` with `0 < a <= credit_limit`,
`AddCharge(a, 0)` returns `true`, and afterwards `GetBalanceOnDay(d)` is
`a * (1 + 30 * apr / 365) ^ (d div 30)` for every day `d >= 0`; for `apr = 0.35`, `a = 500` and
`d = 30` the value lies within `0.005` of `514.38`. -/
theorem AddCharge_single_charge_balance (apr limit a : ℚ) (startDate d : Int) (ha : 0 < a)
    (hal : a ≤ limit) (hd : 0 ≤ d) :
    (∃ after, (CCreditCardAccount.new apr limit startDate).AddCharge a 0 = some (true, after)
        ∧ after.GetBalanceOnDay d = some (a * (1 + 30 * apr / 365) ^ (d / 30).toNat))
      ∧ |(500 : ℚ) * (1 + 30 * 0.35 / 365) ^ ((30 : Int) / 30).toNat - 514.38| < 0.005 := by
  constructor
  · have hadd := AddTransaction_same_cycle (CCreditCardAccount.new apr limit startDate) a 0
      TransactionType.CHARGE _ rfl (Or.inl rfl)
    have hbal : ApplyTransaction (CCreditCardAccount.new apr limit startDate).mBalance
        (CTransactionFactory.CreateTransaction a
          (CCreditCardAccount.new apr limit startDate).mStartDate 0 TransactionType.CHARGE)
        = a := by
      simp [ApplyTransaction, CTransactionFactory.CreateTransaction, CCreditCardAccount.new]
    rw [hbal] at hadd
    have hlim : (CCreditCardAccount.new apr limit startDate).mCreditLimit = limit := rfl
    rw [hlim, if_neg (by
      push_neg
      constructor
      · norm_num; linarith
      · linarith)] at hadd
    refine ⟨_, hadd, ?_⟩
    exact GetBalanceOnDay_single_charge _ a d rfl hd
  · have h1 : ((30 : Int) / 30).toNat = 1 := by decide
    rw [h1, abs_lt]
    constructor <;> norm_num

/-- C16 (the code at the failing inputs). On a new account `LastTransactionOfDay 3` reads the
first position of the empty ledger, so neither it nor `GetBalanceOnDay 3` has a defined result.
After `AddCharge(100, 5)`, `LastTransactionOfDay 2` is `end()`, and `GetBalanceOnDay 2` hands
`end()` to `CalculateInRange`, whose first statement reads the cycle of the transaction at that
position: no defined result either. -/
theorem C16_balance_before_first_transaction_reads_end :
    (CCreditCardAccount.new (35 / 100) 1000 1330300800).LastTransactionOfDay 3 = none
      ∧ (CCreditCardAccount.new (35 / 100) 1000 1330300800).GetBalanceOnDay 3 = none
      ∧ (CCreditCardAccount.new (35 / 100) 1000 1330300800).AddCharge 100 5
          = some (true, lateChargeAccount)
      ∧ lateChargeAccount.LastTransactionOfDay 2 = some lateChargeAccount.mTransactions.length
      ∧ lateChargeAccount.mTransactions[lateChargeAccount.mTransactions.length]? = none
      ∧ lateChargeAccount.GetBalanceOnDay 2 = none :=
  ⟨by with_unfolding_all rfl, by with_unfolding_all rfl, by with_unfolding_all rfl,
    by with_unfolding_all rfl, by with_unfolding_all rfl, by with_unfolding_all rfl⟩

/-- C17 (the code at the failing input). After a charge of 500 on day 0, `AddCharge(-100, 5)`
returns `true`, stores a charge of value `-100` and lowers the cached balance to 400, as a
payment of 100 would; `AddPayment(-100, 5)` returns `true` and raises it to 600. -/
theorem C17_negative_amount_accepted :
    oneChargeAccount.AddCharge (-100) 5
        = some (true, sampleAccount
            [sampleTx 500 TransactionType.CHARGE 0, sampleTx (-100) TransactionType.CHARGE 5]
            400 (1330300800 + 5 * 86400))
      ∧ oneChargeAccount.AddPayment (-100) 5
        = some (true, sampleAccount
            [sampleTx 500 TransactionType.CHARGE 0, sampleTx (-100) TransactionType.PAYMENT 5]
            600 (1330300800 + 5 * 86400))
      ∧ oneChargeAccount.AddPayment 100 5
        = some (true, sampleAccount
            [sampleTx 500 TransactionType.CHARGE 0, sampleTx 100 TransactionType.PAYMENT 5]
            400 (1330300800 + 5 * 86400)) :=
  ⟨by with_unfolding_all rfl, by with_unfolding_all rfl, by with_unfolding_all rfl⟩

/-- C23. A newly constructed account returns the constructor's values from `GetAPR`,
`GetCreditLimit` and `GetStartDate`, has no transactions and cycle count `0`, and
`GetCurrentBalance` returns the balance `0` with the timestamp `-1`. -/
theorem C23_new_account (apr limit : ℚ) (startDate : Int) :
    (CCreditCardAccount.new apr limit startDate).GetAPR = apr
      ∧ (CCreditCardAccount.new apr limit startDate).GetCreditLimit = limit
      ∧ (CCreditCardAccount.new apr limit startDate).GetStartDate = startDate
      ∧ (CCreditCardAccount.new apr limit startDate).GetTransactionCount = 0
      ∧ (CCreditCardAccount.new apr limit startDate).GetCycleCount = 0
      ∧ (CCreditCardAccount.new apr limit startDate).GetCurrentBalance = (0, -1) :=
  ⟨rfl, rfl, rfl, rfl, rfl, rfl⟩

theorem CycleEnd_congr (self other : CCreditCardAccount) (h : SameLedger self other)
    (c : Int) : other.CycleEnd c = self.CycleEnd c := by
  obtain ⟨h1, h2, _⟩ := h
  simp only [CycleEnd, CycleBegin, FirstTransactionAfterCycleStart, GetCycleCount, h1, h2]

theorem CalculateCycleLoop_congr (self other : CCreditCardAccount) (h : SameLedger self other) :
    ∀ (l : List CTransaction) (b i : ℚ) (p : Int),
      other.CalculateCycleLoop l b i p = self.CalculateCycleLoop l b i p := by
  obtain ⟨_, h2, h3⟩ := h
  intro l
  induction l with
  | nil => intro b i p; rfl
  | cons t l ih =>
    intro b i p
    simp only [CalculateCycleLoop, GetEndDayInterest, h2, h3, ih]

theorem CalculateCycle_congr (self other : CCreditCardAccount) (h : SameLedger self other)
    (b : ℚ) (s e : Nat) (j : Bool) :
    other.CalculateCycle b s e j = self.CalculateCycle b s e j := by
  simp only [CalculateCycle, CalculateCycleOn, CalculateCycleLoop_congr self other h,
    GetEndDayInterest, h.1, h.2.2]

theorem AccrueCycles_congr (self other : CCreditCardAccount) (h : SameLedger self other) :
    ∀ (n : Nat) (b : ℚ), other.AccrueCycles n b = self.AccrueCycles n b := by
  intro n
  induction n with
  | zero => intro b; rfl
  | succ k ih =>
    intro b
    simp only [AccrueCycles, GetEndDayInterest, h.2.2, ih]

theorem CalculateInRangeLoop_congr (self other : CCreditCardAccount)
    (h : SameLedger self other) (e : Nat) (K : Int) :
    ∀ (fuel : Nat) (b : ℚ) (s : Nat) (p : Int),
      other.CalculateInRangeLoop e K fuel b s p = self.CalculateInRangeLoop e K fuel b s p := by
  intro fuel
  induction fuel with
  | zero => intro b s p; rfl
  | succ f ih =>
    intro b s p
    simp only [CalculateInRangeLoop, h.1, h.2.1, CycleEnd_congr self other h,
      CalculateCycle_congr self other h, AccrueCycles_congr self other h, ih]

theorem GetBalanceOnDay_congr (self other : CCreditCardAccount) (h : SameLedger self other)
    (day : Int) : other.GetBalanceOnDay day = self.GetBalanceOnDay day := by
  simp only [GetBalanceOnDay, LastTransactionOfDay, CalculateInRange,
    CalculateInRangeLoop_congr self other h, h.1, h.2.1]

/-- C21. A call of `GetBalanceOnDay` leaves the account as it was (ledger, cached balance and
its timestamp, APR, limit, start date), so a second call returns the same value; the value is
a function of the ledger, the start date, the APR and the day alone. -/
theorem C21_balance_query_changes_nothing (self : CCreditCardAccount) (d : Int) :
    (self.GetBalanceOnDayCall d).2 = self
      ∧ ((self.GetBalanceOnDayCall d).2.GetBalanceOnDayCall d).1 = (self.GetBalanceOnDayCall d).1
      ∧ ∀ other : CCreditCardAccount, other.mTransactions = self.mTransactions →
          other.mStartDate = self.mStartDate → other.mAPR = self.mAPR →
          (other.GetBalanceOnDayCall d).1 = (self.GetBalanceOnDayCall d).1 :=
  ⟨rfl, rfl, fun other h1 h2 h3 => GetBalanceOnDay_congr self other ⟨h1, h2, h3⟩ d⟩

theorem CalculateCycleLoop_shift (self : CCreditCardAccount) :
    ∀ (l : List CTransaction) (b x i y : ℚ) (p : Int),
      self.CalculateCycleLoop l (b + x) (i + y) p =
        ((self.CalculateCycleLoop l b i p).1 + x,
          (self.CalculateCycleLoop l b i p).2.1 + y
            + x * self.mAPR / 365 * (((self.CalculateCycleLoop l b i p).2.2 - p : Int) : ℚ),
          (self.CalculateCycleLoop l b i p).2.2) := by
  intro l
  induction l with
  | nil => intro b x i y p; simp [CalculateCycleLoop]
  | cons t l ih =>
    intro b x i y p
    simp only [CalculateCycleLoop]
    have h1 : ApplyTransaction (b + x) t = ApplyTransaction b t + x := by
      rw [ApplyTransaction_eq, ApplyTransaction_eq]; ring
    have h2 : i + y + self.GetEndDayInterest (b + x)
          * ((DayInCycle t.mTime self.mStartDate - p : Int) : ℚ)
        = (i + self.GetEndDayInterest b * ((DayInCycle t.mTime self.mStartDate - p : Int) : ℚ))
          + (y + x * self.mAPR / 365
              * ((DayInCycle t.mTime self.mStartDate - p : Int) : ℚ)) := by
      unfold GetEndDayInterest; ring
    rw [h1, h2, ih]
    simp only [Prod.mk.injEq, and_true, true_and]
    push_cast
    ring

theorem CalculateCycleOn_affine (self : CCreditCardAccount) (b : ℚ) (l : List CTransaction) :
    self.CalculateCycleOn b l false
      = b * (1 + 30 * self.mAPR / 365) + self.CalculateCycleOn 0 l false := by
  have h := CalculateCycleLoop_shift self l 0 b 0 0 0
  simp only [zero_add] at h
  simp only [CalculateCycleOn, h, GetEndDayInterest, DAYS_PER_CYCLE]
  simp only [Bool.false_eq_true, if_false]
  push_cast
  ring

/-- C30. `CalculateCycle` is affine in the starting balance with slope one full cycle of
interest: on every range of transactions, in any order,
`CalculateCycle(b, txs) = b * (1 + 30 * apr / 365) + CalculateCycle(0, txs)`; on the empty
range it is `b * (1 + 30 * apr / 365)`, the amount one round of the flat accrual for a skipped
cycle yields. -/
theorem C30_CalculateCycle_affine (self : CCreditCardAccount) (pre txs post : List CTransaction)
    (b : ℚ) :
    (∃ v0, CalculateCycle { self with mTransactions := pre ++ txs ++ post } 0 pre.length
          (pre.length + txs.length) false = some v0
        ∧ CalculateCycle { self with mTransactions := pre ++ txs ++ post } b pre.length
          (pre.length + txs.length) false = some (b * (1 + 30 * self.mAPR / 365) + v0))
      ∧ CalculateCycle { self with mTransactions := pre ++ post } b pre.length pre.length false
        = some (b * (1 + 30 * self.mAPR / 365))
      ∧ self.AccrueCycles 1 b = b * (1 + 30 * self.mAPR / 365) := by
  refine ⟨⟨_, CalculateCycle_of_block _ pre txs post 0 false rfl, ?_⟩, ?_, ?_⟩
  · rw [CalculateCycle_of_block _ pre txs post b false rfl, CalculateCycleOn_affine]
  · have := CalculateCycle_of_block { self with mTransactions := pre ++ post } pre [] post b
      false (by simp)
    simp only [List.length_nil, Nat.add_zero] at this
    rw [this, CalculateCycleOn_nil]
    unfold GetEndDayInterest DAYS_PER_CYCLE
    congr 1
    push_cast
    ring
  · simp only [AccrueCycles, GetEndDayInterest, DAYS_PER_CYCLE]
    push_cast
    ring

theorem RunCalls_ledger_origin :
    ∀ (calls : List Call) (acct : CCreditCardAccount), acct.TimeSorted →
      ∃ final, RunCalls acct calls = some final ∧ final.mStartDate = acct.mStartDate
        ∧ ∀ t ∈ final.mTransactions, t ∈ acct.mTransactions
            ∨ ∃ c ∈ calls, t
              = CTransactionFactory.CreateTransaction c.value acct.mStartDate c.day c.kind := by
  intro calls
  induction calls with
  | nil => intro acct _; exact ⟨acct, rfl, rfl, fun t ht => Or.inl ht⟩
  | cons c cs ih =>
    intro acct hs
    obtain ⟨flag, after, hcall, hsorted, hstart, _⟩ :=
      AddTransaction_keeps_sorted acct c.value c.day c.kind hs
    obtain ⟨final, hfinal, hfs, hmem⟩ := ih after hsorted
    refine ⟨final, ?_, by rw [hfs, hstart], ?_⟩
    · rw [RunCalls, DoCall_eq, hcall]
      exact hfinal
    · intro t ht
      rcases hmem t ht with h | ⟨c', hc', h⟩
      · cases flag with
        | false =>
          rw [AddTransaction_false_eq acct after c.value c.day c.kind hcall] at h
          exact Or.inl h
        | true =>
          rw [(AddTransaction_true_ledger acct after c.value c.day c.kind hcall).1] at h
          rcases (List.mem_insertIdx (FindInsertIter_le_length acct _)).mp h with h | h
          · exact Or.inr ⟨c, by simp, h⟩
          · exact Or.inl h
      · exact Or.inr ⟨c', List.mem_cons_of_mem _ hc', by rw [h, hstart]⟩

/-- With `int` taken as `ℤ`: for a new account with start time `s` and every sequence of
`AddCharge` and `AddPayment` calls with days `>= 0`, every call returns and every transaction
of the ledger after each of them (after the first `n` calls, for every `n`) has a timestamp
`>= s` and a day offset `DiffDays(timestamp, s) >= 0`. -/
theorem RunCalls_timestamps (apr limit : ℚ) (s : Int) (calls : List Call)
    (hdays : ∀ c ∈ calls, 0 ≤ c.day) (n : Nat) :
    ∃ acct, RunCalls (CCreditCardAccount.new apr limit s) (calls.take n) = some acct
      ∧ ∀ t ∈ acct.mTransactions, s ≤ t.mTime ∧ 0 ≤ CTimeHelper.DiffDays t.mTime s := by
  obtain ⟨final, hrun, _, hmem⟩ := RunCalls_ledger_origin (calls.take n)
    (CCreditCardAccount.new apr limit s) (by unfold TimeSorted CCreditCardAccount.new; simp)
  refine ⟨final, hrun, ?_⟩
  intro t ht
  rcases hmem t ht with h | ⟨c, hc, h⟩
  · simp [CCreditCardAccount.new] at h
  · have hd := hdays c (List.mem_of_mem_take hc)
    have hstart : (CCreditCardAccount.new apr limit s).mStartDate = s := rfl
    rw [h, hstart]
    constructor
    · unfold CTransactionFactory.CreateTransaction DAYS_TO_SECS
      simp only
      omega
    · have := CTimeHelper.DiffDays_AddDays s c.day
      unfold CTimeHelper.AddDays at this
      unfold CTransactionFactory.CreateTransaction
      simp only
      rw [this]
      exact hd

/-- C24 (the code at the failing input). With a charge of 500 on day 0 in the ledger and a new
charge of 400 on day 31, the loop that takes cycle 0 out of the cached balance yields
`500 - 400 = 100`, the new transaction's value subtracted, where the cached balance without the
transactions of cycle 0 is `500 - 500 = 0`.  Re-running cycle 0 from 100 gives `45060 / 73`
(about 617.26) instead of `37550 / 73` (about 514.38), and the charge is rejected. -/
theorem C24_last_cycle_taken_out_by_new_value :
    (oneChargeAccount.mTransactions.drop
          (oneChargeAccount.CycleBegin (oneChargeAccount.GetCycleCount - 1))).foldl
        (RemoveLastCycle
          (CTransactionFactory.CreateTransaction 400 oneChargeAccount.mStartDate 31
            TransactionType.CHARGE))
        oneChargeAccount.mBalance = 100
      ∧ oneChargeAccount.mBalance
          - ((oneChargeAccount.mTransactions.filter (fun t =>
              decide (GetCycle t.mTime oneChargeAccount.mStartDate
                = oneChargeAccount.GetCycleCount - 1))).map SignedAmount).sum = 0
      ∧ oneChargeAccount.CalculateInRange 100 0 1 1 = some (45060 / 73)
      ∧ oneChargeAccount.CalculateInRange 0 0 1 1 = some (37550 / 73)
      ∧ oneChargeAccount.AddCharge 400 31 = some (false, oneChargeAccount) :=
  ⟨by with_unfolding_all rfl, by with_unfolding_all rfl, by with_unfolding_all rfl,
    by with_unfolding_all rfl, by with_unfolding_all rfl⟩

/-- C25 (the code at the failing input). In the skipped-cycle ledger the range of positions
`0 .. 4` ends at the end of cycle 0 and a transaction of cycle 2 follows.  For the target cycle
1, `CalculateCycle` closes cycle 0 at `44983 / 73` (about 616.21) and no cycle without
transactions lies between cycle 0 and cycle 1, yet `CalculateInRange` returns
`33782233 / 53290` (about 633.93): the flat accrual has run once, as `GetBalanceOnDay 40`
shows too. -/
theorem C25_flat_accrual_runs_once_more :
    RunCalls (CCreditCardAccount.new (35 / 100) 1000 1330300800) skipCycleCalls
        = some skipCycleAccount
      ∧ skipCycleAccount.CycleEnd 0 = some 4
      ∧ skipCycleAccount.CalculateCycle 0 0 4 false = some (44983 / 73)
      ∧ skipCycleAccount.CalculateInRange 0 0 4 1 = some (33782233 / 53290)
      ∧ skipCycleAccount.AccrueCycles (1 - 0 - 1) (44983 / 73) = 44983 / 73
      ∧ skipCycleAccount.AccrueCycles (1 - 0) (44983 / 73) = 33782233 / 53290
      ∧ skipCycleAccount.GetBalanceOnDay 40 = some (33782233 / 53290) :=
  ⟨by with_unfolding_all rfl, by with_unfolding_all rfl, by with_unfolding_all rfl,
    by with_unfolding_all rfl, by with_unfolding_all rfl, by with_unfolding_all rfl,
    by with_unfolding_all rfl⟩

/-- C26 (the code at the failing input). After charges of 100 on days 0 and 8 the cached
balance is 200.  `AddCharge(50, 4)` is a mid-history insertion; it caches 450, while
`CalculateInRange` from balance 0 over the ledger after the insertion gives 250: the stored
balance is the recomputation started from the old cached balance. -/
theorem C26_mid_history_starts_from_cache :
    RunCalls (CCreditCardAccount.new (35 / 100) 1000 1330300800)
        [{ kind := TransactionType.CHARGE, value := 100, day := 0 },
         { kind := TransactionType.CHARGE, value := 100, day := 8 }]
        = some twoSmallChargesAccount
      ∧ twoSmallChargesAccount.AddCharge 50 4 = some (true, backdatedChargeAccount)
      ∧ backdatedChargeAccount.GetCurrentBalance.1 = 450
      ∧ backdatedChargeAccount.CalculateInRange 0 0 backdatedChargeAccount.mTransactions.length
          (GetCycle (CTimeHelper.AddDays backdatedChargeAccount.mStartDate 4)
            backdatedChargeAccount.mStartDate) = some 250
      ∧ backdatedChargeAccount.CalculateInRange twoSmallChargesAccount.mBalance 0
          backdatedChargeAccount.mTransactions.length
          (GetCycle (CTimeHelper.AddDays backdatedChargeAccount.mStartDate 4)
            backdatedChargeAccount.mStartDate) = some 450 :=
  ⟨by with_unfolding_all rfl, by with_unfolding_all rfl, by with_unfolding_all rfl,
    by with_unfolding_all rfl, by with_unfolding_all rfl⟩

theorem CalculateCycleLoop_append_list (self : CCreditCardAccount) :
    ∀ (l₁ l₂ : List CTransaction) (b i : ℚ) (p : Int),
      self.CalculateCycleLoop (l₁ ++ l₂) b i p =
        self.CalculateCycleLoop l₂ (self.CalculateCycleLoop l₁ b i p).1
          (self.CalculateCycleLoop l₁ b i p).2.1 (self.CalculateCycleLoop l₁ b i p).2.2 := by
  intro l₁
  induction l₁ with
  | nil => intro l₂ b i p; rfl
  | cons t l ih =>
    intro l₂ b i p
    rw [List.cons_append]
    simp only [CalculateCycleLoop]
    exact ih _ _ _ _

theorem CalculateCycleLoop_swap (self : CCreditCardAccount) (t₁ t₂ : CTransaction)
    (rest : List CTransaction) (b i : ℚ) (p : Int)
    (hday : DayInCycle t₁.mTime self.mStartDate = DayInCycle t₂.mTime self.mStartDate) :
    self.CalculateCycleLoop (t₁ :: t₂ :: rest) b i p
      = self.CalculateCycleLoop (t₂ :: t₁ :: rest) b i p := by
  simp only [CalculateCycleLoop, hday, sub_self, Int.cast_zero, mul_zero, add_zero,
    ApplyTransaction_eq]
  congr 1
  ring

theorem CalculateCycleOn_swap (self : CCreditCardAccount) (l₁ l₂ : List CTransaction)
    (t₁ t₂ : CTransaction) (b : ℚ) (j : Bool)
    (hday : DayInCycle t₁.mTime self.mStartDate = DayInCycle t₂.mTime self.mStartDate) :
    self.CalculateCycleOn b (l₁ ++ t₁ :: t₂ :: l₂) j
      = self.CalculateCycleOn b (l₁ ++ t₂ :: t₁ :: l₂) j := by
  unfold CalculateCycleOn
  rw [CalculateCycleLoop_append_list, CalculateCycleLoop_append_list,
    CalculateCycleLoop_swap self t₁ t₂ l₂ _ _ _ hday]

theorem CalculateCycleLoop_of_fields (self other : CCreditCardAccount)
    (h2 : other.mStartDate = self.mStartDate) (h3 : other.mAPR = self.mAPR) :
    ∀ (l : List CTransaction) (b i : ℚ) (p : Int),
      other.CalculateCycleLoop l b i p = self.CalculateCycleLoop l b i p := by
  intro l
  induction l with
  | nil => intro b i p; rfl
  | cons t l ih =>
    intro b i p
    simp only [CalculateCycleLoop, GetEndDayInterest, h2, h3, ih]

theorem CalculateCycleOn_of_fields (self other : CCreditCardAccount)
    (h2 : other.mStartDate = self.mStartDate) (h3 : other.mAPR = self.mAPR) (b : ℚ)
    (l : List CTransaction) (j : Bool) :
    other.CalculateCycleOn b l j = self.CalculateCycleOn b l j := by
  simp only [CalculateCycleOn, CalculateCycleLoop_of_fields self other h2 h3, GetEndDayInterest,
    h3]

/-- C31. Swapping two adjacent transactions of a range that fall on the same day of the cycle
changes neither the ending balance nor the interest that `CalculateCycle` returns.  Whether the
transactions are accepted does depend on their order: a charge of 500 followed by a payment of
500 on day 0 is accepted, the payment alone on a new account is not. -/
theorem C31_same_day_swap (self : CCreditCardAccount) (pre l₁ l₂ post : List CTransaction)
    (t₁ t₂ : CTransaction) (b : ℚ) (justInterest : Bool)
    (hday : DayInCycle t₁.mTime self.mStartDate = DayInCycle t₂.mTime self.mStartDate) :
    (∃ v, CalculateCycle { self with mTransactions := pre ++ (l₁ ++ t₁ :: t₂ :: l₂) ++ post } b
          pre.length (pre.length + (l₁ ++ t₁ :: t₂ :: l₂).length) justInterest = some v
        ∧ CalculateCycle { self with mTransactions := pre ++ (l₁ ++ t₂ :: t₁ :: l₂) ++ post } b
          pre.length (pre.length + (l₁ ++ t₂ :: t₁ :: l₂).length) justInterest = some v)
      ∧ (CCreditCardAccount.new (35 / 100) 1000 1330300800).AddCharge 500 0
          = some (true, oneChargeAccount)
      ∧ (oneChargeAccount.AddPayment 500 0).map Prod.fst = some true
      ∧ (CCreditCardAccount.new (35 / 100) 1000 1330300800).AddPayment 500 0
          = some (false, CCreditCardAccount.new (35 / 100) 1000 1330300800) := by
  refine ⟨⟨_, CalculateCycle_of_block _ pre _ post b justInterest rfl, ?_⟩,
    by with_unfolding_all rfl, by with_unfolding_all rfl, by with_unfolding_all rfl⟩
  have e₁ := CalculateCycleOn_of_fields self
    { self with mTransactions := pre ++ (l₁ ++ t₁ :: t₂ :: l₂) ++ post } rfl rfl b
    (l₁ ++ t₁ :: t₂ :: l₂) justInterest
  have e₂ := CalculateCycleOn_of_fields self
    { self with mTransactions := pre ++ (l₁ ++ t₂ :: t₁ :: l₂) ++ post } rfl rfl b
    (l₁ ++ t₂ :: t₁ :: l₂) justInterest
  rw [CalculateCycle_of_block _ pre _ post b justInterest rfl, e₁, e₂,
    CalculateCycleOn_swap self l₁ l₂ t₁ t₂ b justInterest hday]

theorem C31_same_day_swap_witness :
    ∃ v, CalculateCycle
          (sampleAccount ([] ++ ([] ++ sampleTx 500 TransactionType.CHARGE 0
            :: sampleTx 500 TransactionType.PAYMENT 0 :: []) ++ []) 0 0) 0
          ([] : List CTransaction).length
          (([] : List CTransaction).length + ([] ++ sampleTx 500 TransactionType.CHARGE 0
            :: sampleTx 500 TransactionType.PAYMENT 0 :: []).length) false = some v
      ∧ CalculateCycle
          (sampleAccount ([] ++ ([] ++ sampleTx 500 TransactionType.PAYMENT 0
            :: sampleTx 500 TransactionType.CHARGE 0 :: []) ++ []) 0 0) 0
          ([] : List CTransaction).length
          (([] : List CTransaction).length + ([] ++ sampleTx 500 TransactionType.PAYMENT 0
            :: sampleTx 500 TransactionType.CHARGE 0 :: []).length) false = some v :=
  (C31_same_day_swap (sampleAccount [] 0 0) [] [] [] [] (sampleTx 500 TransactionType.CHARGE 0)
    (sampleTx 500 TransactionType.PAYMENT 0) 0 false (by decide)).1

end CCreditCardAccount

/-! ## The program with the 32-bit conversion

On ledgers and days within the range of `int` the definitions of section `Machine` compute
what the definitions over `ℤ` compute, so the theorems above describe the program there.
Beyond day 24855 the conversion in `DiffDays` delivers `INT_MIN` and the two part ways. -/

namespace Machine

theorem castInt_of_range {x : Int} (h : -2147483648 ≤ x ∧ x ≤ 2147483647) : castInt x = x := by
  unfold castInt
  rw [if_pos h]

theorem InIntRange_AddDays (s d : Int) :
    InIntRange (AvantStep2.CTimeHelper.AddDays s d) s ↔ -24855 ≤ d ∧ d ≤ 24855 := by
  unfold InIntRange
  rw [AvantStep2.CTimeHelper.GetStartOfDay_eq, AvantStep2.CTimeHelper.GetStartOfDay_eq]
  unfold AvantStep2.CTimeHelper.AddDays DAYS_TO_SECS
  constructor
  · intro h; omega
  · intro h; omega

namespace CTimeHelper

theorem DiffDays_of_range {t s : Int} (h : InIntRange t s) :
    DiffDays t s = AvantStep2.CTimeHelper.DiffDays t s := by
  unfold DiffDays AvantStep2.CTimeHelper.DiffDays
  rw [castInt_of_range h]

end CTimeHelper

namespace CCreditCardAccount

theorem GetCycle_of_range {t s : Int} (h : InIntRange t s) :
    GetCycle t s = AvantStep2.CCreditCardAccount.GetCycle t s := by
  unfold GetCycle AvantStep2.CCreditCardAccount.GetCycle
  rw [CTimeHelper.DiffDays_of_range h]

theorem DayInCycle_of_range {t s : Int} (h : InIntRange t s) :
    DayInCycle t s = AvantStep2.CCreditCardAccount.DayInCycle t s := by
  unfold DayInCycle AvantStep2.CCreditCardAccount.DayInCycle
  rw [CTimeHelper.DiffDays_of_range h]

theorem findIdx_congr {α : Type} (p q : α → Bool) :
    ∀ l : List α, (∀ x ∈ l, p x = q x) → l.findIdx p = l.findIdx q := by
  intro l
  induction l with
  | nil => intro _; rfl
  | cons a l ih =>
    intro h
    rw [List.findIdx_cons, List.findIdx_cons, h a (List.mem_cons_self a l),
      ih (fun x hx => h x (List.mem_cons_of_mem a hx))]

theorem GetCycleCount_of_range (self : CCreditCardAccount) (hr : LedgerInIntRange self) :
    GetCycleCount self = self.GetCycleCount := by
  unfold GetCycleCount AvantStep2.CCreditCardAccount.GetCycleCount
  cases hl : self.mTransactions.getLast? with
  | none => rfl
  | some l =>
    simp only
    rw [GetCycle_of_range (hr l (List.mem_of_getLast?_eq_some hl))]

theorem FirstTransactionAfterCycleStart_of_range (self : CCreditCardAccount)
    (hr : LedgerInIntRange self) (cycle : Int) :
    FirstTransactionAfterCycleStart self cycle = self.FirstTransactionAfterCycleStart cycle := by
  unfold FirstTransactionAfterCycleStart
    AvantStep2.CCreditCardAccount.FirstTransactionAfterCycleStart
  rw [GetCycleCount_of_range self hr]
  rw [findIdx_congr (IsInOrPastCycle self.mStartDate cycle)
    (AvantStep2.CCreditCardAccount.IsInOrPastCycle self.mStartDate cycle) _ (by
      intro x hx
      unfold IsInOrPastCycle AvantStep2.CCreditCardAccount.IsInOrPastCycle
      rw [GetCycle_of_range (hr x hx)])]

theorem CycleBegin_of_range (self : CCreditCardAccount) (hr : LedgerInIntRange self)
    (cycle : Int) : CycleBegin self cycle = self.CycleBegin cycle := by
  unfold CycleBegin AvantStep2.CCreditCardAccount.CycleBegin
  rw [GetCycleCount_of_range self hr]
  rw [findIdx_congr (IsInCycle self.mStartDate cycle)
    (AvantStep2.CCreditCardAccount.IsInCycle self.mStartDate cycle) _ (by
      intro x hx
      unfold IsInCycle AvantStep2.CCreditCardAccount.IsInCycle
      rw [GetCycle_of_range (hr x hx)])]

theorem CycleEndScan_of_range (s : Int) (txs : List CTransaction) (cycle : Int) (cs : Nat)
    (hr : ∀ t ∈ txs, InIntRange t.mTime s) :
    ∀ n, CycleEndScan s txs cycle cs n
      = AvantStep2.CCreditCardAccount.CycleEndScan s txs cycle cs n := by
  intro n
  induction n with
  | zero => rfl
  | succ n ih =>
    unfold CycleEndScan AvantStep2.CCreditCardAccount.CycleEndScan
    cases ht : txs[n]? with
    | none => rfl
    | some t =>
      simp only
      rw [GetCycle_of_range (hr t (List.getElem?_mem ht)), ih]

theorem CycleEnd_of_range (self : CCreditCardAccount) (hr : LedgerInIntRange self)
    (cycle : Int) : CycleEnd self cycle = self.CycleEnd cycle := by
  unfold CycleEnd AvantStep2.CCreditCardAccount.CycleEnd
  rw [CycleBegin_of_range self hr, FirstTransactionAfterCycleStart_of_range self hr,
    CycleEndScan_of_range _ _ _ _ hr]

theorem LastTransactionOfDay_of_range (self : CCreditCardAccount) (hr : LedgerInIntRange self)
    (day : Int) : LastTransactionOfDay self day = self.LastTransactionOfDay day := by
  unfold LastTransactionOfDay AvantStep2.CCreditCardAccount.LastTransactionOfDay
  cases ht : self.mTransactions[0]? with
  | none => rfl
  | some first =>
    simp only
    have h1 : GetDayOfTransaction first self.mStartDate
        = AvantStep2.CCreditCardAccount.GetDayOfTransaction first self.mStartDate := by
      unfold GetDayOfTransaction AvantStep2.CCreditCardAccount.GetDayOfTransaction
      rw [CTimeHelper.DiffDays_of_range (hr first (List.getElem?_mem ht))]
    rw [h1, findIdx_congr (IsPastDay self.mStartDate day)
      (AvantStep2.CCreditCardAccount.IsPastDay self.mStartDate day) _ (by
        intro x hx
        unfold IsPastDay AvantStep2.CCreditCardAccount.IsPastDay
        rw [CTimeHelper.DiffDays_of_range (hr x hx)])]

theorem CalculateCycleLoop_of_range (self : CCreditCardAccount) :
    ∀ (l : List CTransaction) (b i : ℚ) (p : Int),
      (∀ t ∈ l, InIntRange t.mTime self.mStartDate) →
      CalculateCycleLoop self l b i p = self.CalculateCycleLoop l b i p := by
  intro l
  induction l with
  | nil => intro b i p _; rfl
  | cons t l ih =>
    intro b i p h
    unfold CalculateCycleLoop AvantStep2.CCreditCardAccount.CalculateCycleLoop
    simp only
    rw [DayInCycle_of_range (h t (List.mem_cons_self t l)),
      ih _ _ _ (fun x hx => h x (List.mem_cons_of_mem t hx))]

theorem CalculateCycleOn_of_range (self : CCreditCardAccount) (b : ℚ) (l : List CTransaction)
    (j : Bool) (h : ∀ t ∈ l, InIntRange t.mTime self.mStartDate) :
    CalculateCycleOn self b l j = self.CalculateCycleOn b l j := by
  unfold CalculateCycleOn AvantStep2.CCreditCardAccount.CalculateCycleOn
  rw [CalculateCycleLoop_of_range self l b 0 0 h]

theorem CalculateCycle_of_range (self : CCreditCardAccount) (hr : LedgerInIntRange self)
    (b : ℚ) (start e : Nat) (j : Bool) :
    CalculateCycle self b start e j = self.CalculateCycle b start e j := by
  unfold CalculateCycle AvantStep2.CCreditCardAccount.CalculateCycle
  rw [CalculateCycleOn_of_range self b _ j (fun t ht =>
    hr t (List.mem_of_mem_drop (List.mem_of_mem_take ht)))]

theorem CalculateInRangeLoop_of_range (self : CCreditCardAccount) (hr : LedgerInIntRange self)
    (e : Nat) (K : Int) :
    ∀ (fuel : Nat) (b : ℚ) (start : Nat) (p : Int),
      CalculateInRangeLoop self e K fuel b start p
        = self.CalculateInRangeLoop e K fuel b start p := by
  intro fuel
  induction fuel with
  | zero => intro b start p; rfl
  | succ fuel ih =>
    intro b start p
    unfold CalculateInRangeLoop AvantStep2.CCreditCardAccount.CalculateInRangeLoop
    cases ht : self.mTransactions[start]? with
    | none => rfl
    | some t =>
      simp only
      rw [GetCycle_of_range (hr t (List.getElem?_mem ht)), CycleEnd_of_range self hr]
      simp only [CalculateCycle_of_range self hr, ih]

theorem CalculateInRange_of_range (self : CCreditCardAccount) (hr : LedgerInIntRange self)
    (b : ℚ) (start e : Nat) (K : Int) :
    CalculateInRange self b start e K = self.CalculateInRange b start e K := by
  unfold CalculateInRange AvantStep2.CCreditCardAccount.CalculateInRange
  cases ht : self.mTransactions[start]? with
  | none => rfl
  | some t =>
    simp only
    rw [GetCycle_of_range (hr t (List.getElem?_mem ht)),
      CalculateInRangeLoop_of_range self hr]

/-- On a ledger within the range of `int` and for a day of at most 24855 in absolute value,
the program with the 32-bit conversion computes the balance of the definitions over `ℤ`. -/
theorem GetBalanceOnDay_of_range (self : CCreditCardAccount) (hr : LedgerInIntRange self)
    (day : Int) (hday : -24855 ≤ day ∧ day ≤ 24855) :
    GetBalanceOnDay self day = self.GetBalanceOnDay day := by
  unfold GetBalanceOnDay AvantStep2.CCreditCardAccount.GetBalanceOnDay
  simp only
  rw [GetCycle_of_range ((InIntRange_AddDays self.mStartDate day).mpr hday),
    LastTransactionOfDay_of_range self hr]
  simp only [CalculateInRange_of_range self hr]

/-- On a ledger within the range of `int` and for a day of at most 24855 in absolute value,
`AddTransaction` with the 32-bit conversion is `AddTransaction` over `ℤ`. -/
theorem AddTransaction_of_range (self : CCreditCardAccount) (hr : LedgerInIntRange self)
    (value : ℚ) (day : Int) (type : TransactionType) (hday : -24855 ≤ day ∧ day ≤ 24855) :
    AddTransaction self value day type = self.AddTransaction value day type := by
  have hnew : InIntRange
      (CTransactionFactory.CreateTransaction value self.mStartDate day type).mTime
      self.mStartDate := (InIntRange_AddDays self.mStartDate day).mpr hday
  have hadded : ∀ i, LedgerInIntRange
      { self with
        mTransactions :=
          self.mTransactions.insertIdx i
            (CTransactionFactory.CreateTransaction value self.mStartDate day type) } := by
    intro i t ht
    by_cases hi : i ≤ self.mTransactions.length
    · rcases (List.mem_insertIdx hi).mp ht with h | h
      · rw [h]; exact hnew
      · exact hr t h
    · rw [show self.mTransactions.insertIdx i _ = self.mTransactions from
        List.insertIdx_of_length_lt _ _ _ (by omega)] at ht
      exact hr t ht
  unfold AddTransaction AvantStep2.CCreditCardAccount.AddTransaction
  simp only
  rw [GetCycle_of_range hnew, GetCycleCount_of_range self hr]
  simp only [CalculateInRange_of_range self hr, CycleBegin_of_range self hr,
    CalculateInRange_of_range _ (hadded _)]

theorem DoCall_of_range (self : CCreditCardAccount) (hr : LedgerInIntRange self)
    (c : CCreditCardAccount.Call) (hday : -24855 ≤ c.day ∧ c.day ≤ 24855) :
    DoCall self c = self.DoCall c := by
  unfold DoCall AvantStep2.CCreditCardAccount.DoCall AddCharge AddPayment
    AvantStep2.CCreditCardAccount.AddCharge AvantStep2.CCreditCardAccount.AddPayment
  cases c.kind
  · exact AddTransaction_of_range self hr _ _ _ hday
  · exact AddTransaction_of_range self hr _ _ _ hday

theorem LedgerInIntRange_after (self : CCreditCardAccount) (hr : LedgerInIntRange self)
    (c : CCreditCardAccount.Call) (hday : -24855 ≤ c.day ∧ c.day ≤ 24855)
    (r : Bool × CCreditCardAccount) (h : self.DoCall c = some r) : LedgerInIntRange r.2 := by
  rw [AvantStep2.CCreditCardAccount.DoCall_eq] at h
  obtain ⟨flag, after⟩ := r
  cases flag with
  | false =>
    rw [AvantStep2.CCreditCardAccount.AddTransaction_false_eq self after _ _ _ h]
    exact hr
  | true =>
    have heq := AvantStep2.CCreditCardAccount.AddTransaction_true_eq self after _ _ _ h
    intro t ht
    have hstart : after.mStartDate = self.mStartDate := by rw [heq]
    have hl := (AvantStep2.CCreditCardAccount.AddTransaction_true_ledger self after _ _ _ h).1
    show InIntRange t.mTime after.mStartDate
    rw [hstart]
    change t ∈ after.mTransactions at ht
    rw [hl] at ht
    rcases (List.mem_insertIdx
      (AvantStep2.CCreditCardAccount.FindInsertIter_le_length self _)).mp ht with h1 | h1
    · rw [h1]
      exact (InIntRange_AddDays self.mStartDate c.day).mpr hday
    · exact hr t h1

/-- On a ledger within the range of `int`, a sequence of calls whose days are at most 24855 in
absolute value runs with the 32-bit conversion as it does over `ℤ`. -/
theorem RunCalls_of_range :
    ∀ (calls : List CCreditCardAccount.Call) (acct : CCreditCardAccount),
      LedgerInIntRange acct → (∀ c ∈ calls, -24855 ≤ c.day ∧ c.day ≤ 24855) →
      RunCalls acct calls = AvantStep2.CCreditCardAccount.RunCalls acct calls := by
  intro calls
  induction calls with
  | nil => intro acct _ _; rfl
  | cons c cs ih =>
    intro acct hr hdays
    unfold RunCalls AvantStep2.CCreditCardAccount.RunCalls
    rw [DoCall_of_range acct hr c (hdays c (List.mem_cons_self c cs))]
    cases hcall : acct.DoCall c with
    | none => rfl
    | some r =>
      simp only
      exact ih r.2
        (LedgerInIntRange_after acct hr c (hdays c (List.mem_cons_self c cs)) r hcall)
        (fun x hx => hdays x (List.mem_cons_of_mem c hx))

end CCreditCardAccount

namespace CTimeHelper

/-- For a day offset `n` of at most 24855 in absolute value, the program measures the
transaction built by `CreateTransaction(value, &s, n, type)` at `n` days after `s`. -/
theorem DiffDays_CreateTransaction_of_range (value : ℚ) (s n : Int) (type : TransactionType)
    (h : -24855 ≤ n ∧ n ≤ 24855) :
    DiffDays (CTransactionFactory.CreateTransaction value s n type).mTime s = n := by
  have hr : InIntRange (CTransactionFactory.CreateTransaction value s n type).mTime s :=
    (InIntRange_AddDays s n).mpr h
  rw [DiffDays_of_range hr]
  exact AvantStep2.CTimeHelper.DiffDays_AddDays s n

end CTimeHelper

namespace CCreditCardAccount

theorem LedgerInIntRange_of_days (self : CCreditCardAccount)
    (h : ∀ x ∈ self.mTransactions,
      -24855 ≤ AvantStep2.CCreditCardAccount.GetDayOfTransaction x self.mStartDate
        ∧ AvantStep2.CCreditCardAccount.GetDayOfTransaction x self.mStartDate ≤ 24855) :
    LedgerInIntRange self := by
  intro t ht
  have := h t ht
  unfold AvantStep2.CCreditCardAccount.GetDayOfTransaction at this
  rw [AvantStep2.CTimeHelper.DiffDays_eq] at this
  unfold InIntRange
  rw [AvantStep2.CTimeHelper.GetStartOfDay_eq, AvantStep2.CTimeHelper.GetStartOfDay_eq]
  omega

/-- The balance after the last cycle as the program computes it, for days up to 24855: on a
non-empty ledger sorted by time whose days lie in `0 .. 24855`, for a day `d <= 24855` whose
cycle `d / 30` lies strictly after the cycle of the last transaction, `GetBalanceOnDay d` is
the balance obtained from `0` by closing the cycles `0 .. d / 30 - 1` in order. -/
theorem GetBalanceOnDay_after_last_cycle_of_range (self : CCreditCardAccount) (d : Int)
    (l : CTransaction) (hlast : self.mTransactions.getLast? = some l) (hs : self.TimeSorted)
    (hdays : ∀ x ∈ self.mTransactions,
      0 ≤ AvantStep2.CCreditCardAccount.GetDayOfTransaction x self.mStartDate
        ∧ AvantStep2.CCreditCardAccount.GetDayOfTransaction x self.mStartDate ≤ 24855)
    (hd : AvantStep2.CCreditCardAccount.GetCycle l.mTime self.mStartDate < d / 30)
    (hmax : d ≤ 24855) :
    GetBalanceOnDay self d = some (self.BalanceAfterCycles (d / 30).toNat) := by
  have hr : LedgerInIntRange self :=
    LedgerInIntRange_of_days self (fun x hx => ⟨by have := (hdays x hx).1; omega, (hdays x hx).2⟩)
  have hl0 := (hdays l (List.mem_of_getLast?_eq_some hlast)).1
  have hc0 := AvantStep2.CCreditCardAccount.CycleOf_nonneg self l hl0
  have hc0' : 0 ≤ AvantStep2.CCreditCardAccount.GetCycle l.mTime self.mStartDate := hc0
  rw [GetBalanceOnDay_of_range self hr d ⟨by omega, hmax⟩]
  exact (AvantStep2.CCreditCardAccount.GetBalanceOnDay_after_last_cycle self d l hlast hs
    (fun x hx => (hdays x hx).1) hd).1

/-- The balance after a single charge as the program computes it, for days up to 24855: on a
new account `AddCharge(a, 0)` with `0 < a <= credit_limit` returns `true`, and afterwards
`GetBalanceOnDay(d)` is `a * (1 + 30 * apr / 365) ^ (d div 30)` for `0 <= d <= 24855`. -/
theorem AddCharge_single_charge_of_range (apr limit a : ℚ) (startDate d : Int) (ha : 0 < a)
    (hal : a ≤ limit) (hd : 0 ≤ d) (hmax : d ≤ 24855) :
    ∃ after, AddCharge (CCreditCardAccount.new apr limit startDate) a 0 = some (true, after)
      ∧ GetBalanceOnDay after d = some (a * (1 + 30 * apr / 365) ^ (d / 30).toNat) := by
  obtain ⟨after, hadd, hbal⟩ :=
    (AvantStep2.CCreditCardAccount.AddCharge_single_charge_balance apr limit a startDate d ha hal
      hd).1
  have hnew : LedgerInIntRange (CCreditCardAccount.new apr limit startDate) := by
    intro t ht
    simp [CCreditCardAccount.new] at ht
  have hafter : LedgerInIntRange after :=
    LedgerInIntRange_after (CCreditCardAccount.new apr limit startDate) hnew
      { kind := TransactionType.CHARGE, value := a, day := 0 } (by simp) (true, after) hadd
  refine ⟨after, ?_, ?_⟩
  · unfold AddCharge
    rw [AddTransaction_of_range _ hnew a 0 TransactionType.CHARGE (by decide)]
    exact hadd
  · rw [GetBalanceOnDay_of_range after hafter d ⟨by omega, hmax⟩]
    exact hbal

/-- The day offsets of the ledger as the program computes them, for days up to 24855: for a new
account with start time `s` and every sequence of calls with days in `0 .. 24855`, every call
returns and every transaction of the ledger after each of them has a timestamp `>= s` and a
day offset `DiffDays(timestamp, s) >= 0`. -/
theorem RunCalls_timestamps_of_range (apr limit : ℚ) (s : Int)
    (calls : List CCreditCardAccount.Call)
    (hdays : ∀ c ∈ calls, 0 ≤ c.day ∧ c.day ≤ 24855) (n : Nat) :
    ∃ acct, RunCalls (CCreditCardAccount.new apr limit s) (calls.take n) = some acct
      ∧ ∀ t ∈ acct.mTransactions, s ≤ t.mTime ∧ 0 ≤ CTimeHelper.DiffDays t.mTime s := by
  have hnew : LedgerInIntRange (CCreditCardAccount.new apr limit s) := by
    intro t ht
    simp [CCreditCardAccount.new] at ht
  have hsorted : (CCreditCardAccount.new apr limit s).TimeSorted := by
    unfold AvantStep2.CCreditCardAccount.TimeSorted CCreditCardAccount.new; simp
  obtain ⟨final, hrun, hstart, hmem⟩ :=
    AvantStep2.CCreditCardAccount.RunCalls_ledger_origin (calls.take n)
      (CCreditCardAccount.new apr limit s) hsorted
  refine ⟨final, ?_, ?_⟩
  · rw [RunCalls_of_range (calls.take n) _ hnew (fun c hc => by
      have := hdays c (List.mem_of_mem_take hc)
      exact ⟨by omega, this.2⟩)]
    exact hrun
  · intro t ht
    rcases hmem t ht with h | ⟨c, hc, h⟩
    · simp [CCreditCardAccount.new] at h
    · have hd := hdays c (List.mem_of_mem_take hc)
      have hs : (CCreditCardAccount.new apr limit s).mStartDate = s := rfl
      rw [h, hs]
      constructor
      · unfold CTransactionFactory.CreateTransaction DAYS_TO_SECS
        simp only
        omega
      · rw [CTimeHelper.DiffDays_CreateTransaction_of_range c.value s c.day c.kind
          ⟨by omega, hd.2⟩]
        exact hd.1

end CCreditCardAccount

/-- C19 (the code at the failing input). For the day offset 24856 the transaction built by
`CreateTransaction` has the timestamp of the account start plus 24856 days, and the two
midnights handed to `difftime` lie 2147558400 seconds apart.  That is more than an `int`
holds: the conversion delivers `INT_MIN`, and `DiffDays(T, s)` is `INT_MIN / 86400 = -24855`
where the claim says 24856.  For the day offset 24855 the result is 24855. -/
theorem C19_created_transaction_day_overflows_int :
    (CTransactionFactory.CreateTransaction 500 1330300800 24856 TransactionType.CHARGE).mTime
        = AvantStep2.CTimeHelper.AddDays 1330300800 24856
      ∧ AvantStep2.CTimeHelper.GetStartOfDay
            (CTransactionFactory.CreateTransaction 500 1330300800 24856
              TransactionType.CHARGE).mTime
          - AvantStep2.CTimeHelper.GetStartOfDay 1330300800 = 2147558400
      ∧ castInt 2147558400 = -2147483648
      ∧ CTimeHelper.DiffDays
          (CTransactionFactory.CreateTransaction 500 1330300800 24856
            TransactionType.CHARGE).mTime 1330300800 = -24855
      ∧ CTimeHelper.DiffDays
          (CTransactionFactory.CreateTransaction 500 1330300800 24855
            TransactionType.CHARGE).mTime 1330300800 = 24855 := by
  refine ⟨by decide, by decide, by decide, by decide, by decide⟩

/-- C1 (the code at the failing input). The ledger holds one charge of 500 on day 0 (cycle 0)
and the query day 24856 lies in cycle 828.  `DiffDays` of the query day overflows, so
`GetBalanceOnDay` takes the cycle of the day to be -828: the cycle of the charge is not below
it, the charge is added without interest and no cycle is closed.  The result is 500, where
closing the cycles 0 .. 827 gives `500 * (1 + 30 * 0.35 / 365) ^ 828`. -/
theorem C1_query_day_overflows_int :
    AvantStep2.CCreditCardAccount.oneChargeAccount.TimeSorted
      ∧ (∀ x ∈ AvantStep2.CCreditCardAccount.oneChargeAccount.mTransactions,
          CCreditCardAccount.GetDayOfTransaction x 1330300800 = 0)
      ∧ CCreditCardAccount.GetCycle (AvantStep2.CTimeHelper.AddDays 1330300800 24856) 1330300800
          = -828
      ∧ CCreditCardAccount.LastTransactionOfDay
          AvantStep2.CCreditCardAccount.oneChargeAccount 24856 = some 0
      ∧ CCreditCardAccount.GetBalanceOnDay AvantStep2.CCreditCardAccount.oneChargeAccount 24856
          = some 500
      ∧ AvantStep2.CCreditCardAccount.oneChargeAccount.BalanceAfterCycles
            ((24856 : Int) / 30).toNat = 500 * (1 + 30 * (35 / 100) / 365) ^ 828
      ∧ (500 : ℚ) < 500 * (1 + 30 * (35 / 100) / 365) ^ 828 := by
  refine ⟨by unfold AvantStep2.CCreditCardAccount.TimeSorted; decide, by decide, by decide,
    by decide, by with_unfolding_all rfl, ?_, ?_⟩
  · have h := AvantStep2.CCreditCardAccount.BalanceAfterCycles_single_charge
      AvantStep2.CCreditCardAccount.oneChargeAccount 500 rfl 827
    have hapr : AvantStep2.CCreditCardAccount.oneChargeAccount.mAPR = 35 / 100 := rfl
    rw [hapr] at h
    rw [show ((24856 : Int) / 30).toNat = 827 + 1 from by decide,
      show (828 : ℕ) = 827 + 1 from rfl]
    exact h
  · have h1 : (1 : ℚ) < 1 + 30 * (35 / 100) / 365 := by norm_num
    have h2 := one_lt_pow₀ h1 (show 828 ≠ 0 by decide)
    have h3 : (0 : ℚ) < 500 := by norm_num
    exact lt_mul_of_one_lt_right h3 h2

/-- C15 (the code at the failing input). On a new account with APR 0.35 and limit 1000,
`AddCharge(100, 0)` returns `true` and `GetBalanceOnDay(30)` is `100 * (1 + 30 * 0.35 / 365)`,
as the claim says.  For the day 24856 `DiffDays` overflows and `GetBalanceOnDay(24856)` is
100, the charge without any interest, where the claim says
`100 * (1 + 30 * 0.35 / 365) ^ 828`. -/
theorem C15_single_charge_day_overflows_int :
    CCreditCardAccount.AddCharge (CCreditCardAccount.new (35 / 100) 1000 1330300800) 100 0
        = some (true, AvantStep2.CCreditCardAccount.smallChargeAccount)
      ∧ CCreditCardAccount.GetBalanceOnDay AvantStep2.CCreditCardAccount.smallChargeAccount 30
          = some (100 * (1 + 30 * (35 / 100) / 365) ^ ((30 : Int) / 30).toNat)
      ∧ CCreditCardAccount.GetBalanceOnDay AvantStep2.CCreditCardAccount.smallChargeAccount 24856
          = some 100
      ∧ ((24856 : Int) / 30).toNat = 828
      ∧ (100 : ℚ) < 100 * (1 + 30 * (35 / 100) / 365) ^ 828 := by
  refine ⟨by with_unfolding_all rfl, by with_unfolding_all rfl, by with_unfolding_all rfl,
    by decide, ?_⟩
  have h1 : (1 : ℚ) < 1 + 30 * (35 / 100) / 365 := by norm_num
  have h2 := one_lt_pow₀ h1 (show 828 ≠ 0 by decide)
  have h3 : (0 : ℚ) < 100 := by norm_num
  exact lt_mul_of_one_lt_right h3 h2

/-- C22 (the code at the failing input). On a new account the call `AddCharge(1, 24856)` is
accepted.  The transaction it leaves in the ledger has a timestamp after the start date, but
its day offset `DiffDays(timestamp, s)` is -24855: the timestamp is not before the start and
the day offset is negative. -/
theorem C22_day_offset_overflows_int :
    CCreditCardAccount.RunCalls (CCreditCardAccount.new (35 / 100) 1000 1330300800)
        [{ kind := TransactionType.CHARGE, value := 1, day := 24856 }]
        = some (AvantStep2.CCreditCardAccount.sampleAccount
            [AvantStep2.CCreditCardAccount.sampleTx 1 TransactionType.CHARGE 24856] 1
            (1330300800 + 24856 * 86400))
      ∧ CCreditCardAccount.AddCharge (CCreditCardAccount.new (35 / 100) 1000 1330300800) 1 24856
        = some (true, AvantStep2.CCreditCardAccount.sampleAccount
            [AvantStep2.CCreditCardAccount.sampleTx 1 TransactionType.CHARGE 24856] 1
            (1330300800 + 24856 * 86400))
      ∧ ∀ t ∈ (AvantStep2.CCreditCardAccount.sampleAccount
            [AvantStep2.CCreditCardAccount.sampleTx 1 TransactionType.CHARGE 24856] 1
            (1330300800 + 24856 * 86400)).mTransactions,
          1330300800 ≤ t.mTime ∧ CTimeHelper.DiffDays t.mTime 1330300800 = -24855 := by
  refine ⟨by with_unfolding_all rfl, by with_unfolding_all rfl, by decide⟩

end Machine

end AvantStep2
